import Mathlib

/-!
Shallow embedding of the feature-aggregation pipeline of the
rapid-street-assessments repository.

The embedded code:
* `src/backend/api/processors/features/feature_processor.py`
  (`process_single_collection`, the current aggregator with the roadlink
  join phase);
* `src/backend/robyn_lib/processors/features/feature_processor.py`
  (`process_single_collection`, the legacy aggregator without the join);
* `src/backend/robyn_lib/services/services.py`
  (`OSFeatureService.get_features`);
* `src/backend/api/processors/bbox/bbox_processor.py`
  (`get_bbox_from_usrn`, with the geometry store and the shapely buffer
  abstracted as parameters).

Python values flowing through the aggregator are JSON-like dictionaries;
they are modelled by the inductive `Json` below.  A Python `dict` is an
association list with unique keys (`Obj`); `del d[k]` is modelled by
filtering the key out, which agrees with Python on every genuine dict.
Exceptions are modelled by `Except PyErr`; `asyncio.gather` with
`return_exceptions=True` delivers, in coroutine submission order, either a
result or an exception sentinel, which is the `FetchResult` type.  The
network is abstracted as an `Oracle` giving the response of every upstream
call the aggregator can issue.
-/

set_option maxHeartbeats 1000000

/-- JSON-like Python values. -/
inductive Json where
  | null : Json
  | bool (b : Bool) : Json
  | num (n : Int) : Json
  | str (s : String) : Json
  | arr (elems : List Json) : Json
  | obj (fields : List (String × Json)) : Json

/-- A Python dict with string keys. -/
abbrev Obj := List (String × Json)

/-- Dict read access, `d[k]` / `d.get(k)`. -/
def getKey (o : Obj) (k : String) : Option Json := List.lookup k o

/-- Membership test, `k in d`. -/
def hasKey (o : Obj) (k : String) : Bool := (getKey o k).isSome

/-- Key deletion, `del d[k]`.  On a genuine dict the key occurs at most
once, so removing every occurrence agrees with Python. -/
def delKey (o : Obj) (k : String) : Obj := o.filter (fun p => p.1 != k)

/-- The exceptions the embedded code can raise. -/
inductive PyErr where
  | valueError (msg : String)
  | typeError (msg : String)

/-- One slot of an `asyncio.gather(..., return_exceptions=True)` result:
either the fetched value or the exception the coroutine raised. -/
inductive FetchResult where
  | exn (msg : String)
  | val (v : Json)

/-- Python truthiness of a JSON-like value. -/
def pyTruthy : Json → Bool
  | .null => false
  | .bool b => b
  | .num n => n != 0
  | .str s => s != ""
  | .arr l => !l.isEmpty
  | .obj l => !l.isEmpty

/-- Numeric view of a value, for Python order comparisons (`bool` is an
`int` in Python). -/
def jsonAsNum : Json → Option Int
  | .num n => some n
  | .bool b => some (if b then 1 else 0)
  | _ => none

/-- Python string comparison on code-point lists: lexicographic by code
point, shorter prefix first. -/
def pyStrLtChars : List Char → List Char → Bool
  | [], [] => false
  | [], _ :: _ => true
  | _ :: _, [] => false
  | a :: as, b :: bs =>
    if Nat.blt a.toNat b.toNat then true
    else if Nat.blt b.toNat a.toNat then false
    else pyStrLtChars as bs

/-- Python `a < b` on strings. -/
def pyStrLt (a b : String) : Bool := pyStrLtChars a.data b.data

/-- Python `a > b` on the values the aggregator compares: strings compare
lexicographically by code point, numbers numerically, anything else raises
`TypeError`. -/
def pyGt (a b : Json) : Except PyErr Bool :=
  match a, b with
  | .str x, .str y => .ok (pyStrLt y x)
  | _, _ =>
    match jsonAsNum a, jsonAsNum b with
    | some x, some y => .ok (decide (y < x))
    | _, _ => .error (.typeError "unorderable types in timestamp comparison")

/-- Python iteration `for x in v`: lists yield elements, dicts yield their
keys, strings yield one-character strings, everything else raises. -/
def iterElems : Json → Except PyErr (List Json)
  | .arr l => .ok l
  | .obj l => .ok (l.map (fun p => Json.str p.1))
  | .str s => .ok (s.data.map (fun c => Json.str (String.mk [c])))
  | _ => .error (.typeError "object is not iterable")

/-- The running-latest-timestamp update of the aggregator:
`if result.get('timeStamp'): if latest is None or result['timeStamp'] >
latest: latest = result['timeStamp']`. -/
def updateTimestamp (o : Obj) (acc : Option Json) : Except PyErr (Option Json) :=
  match getKey o "timeStamp" with
  | none => .ok acc
  | some v =>
    if pyTruthy v then
      match acc with
      | none => .ok (some v)
      | some c =>
        match pyGt v c with
        | .error e => .error e
        | .ok g => .ok (if g then some v else acc)
    else .ok acc

/-- Route types of `src/backend/api/types.py`. -/
inductive RouteType where
  | streetInfo
  | landUse
deriving DecidableEq

/-- A single-quote character, as Python prints it in enum errors. -/
def quoteMark : String := String.mk [Char.ofNat 39]

/-- The `RouteType(path_type)` enum constructor: raises `ValueError` on an
unknown value. -/
def parseRouteType (pt : String) : Except PyErr RouteType :=
  if pt = "street-info" then .ok RouteType.streetInfo
  else if pt = "land-use" then .ok RouteType.landUse
  else .error (.valueError (quoteMark ++ pt ++ quoteMark ++ " is not a valid RouteType"))

/-- Message of the internal guard raised if `geometry` survived deletion. -/
def geomGuardMsg (cid : String) : String :=
  "Failed to remove geometry from feature in " ++ cid

/-- The street collection whose features carry roadlink references. -/
def streetCollectionId : String := "trn-ntwk-street-1"

/-- The ids appended from one `properties.roadlinkreference` list:
`if isinstance(ref, dict) and "roadlinkid" in ref`. -/
def collectRefIds (refs : List Json) : List Json :=
  refs.filterMap (fun r =>
    match r with
    | .obj ro => getKey ro "roadlinkid"
    | _ => none)

/-- Extraction `feature.get("properties", {}).get("roadlinkreference", [])`
followed by the loop over the references.  A present but non-dict
`properties` has no `.get` and raises; a missing key defaults. -/
def extractRoadlinkIds (feature : Obj) : Except PyErr (List Json) :=
  match getKey feature "properties" with
  | none => .ok []
  | some (.obj props) =>
    match getKey props "roadlinkreference" with
    | none => .ok []
    | some v =>
      match iterElems v with
      | .error e => .error e
      | .ok refs => .ok (collectRefIds refs)
  | some _ => .error (.typeError "properties value has no get attribute")

/-- One iteration of the inner feature loop of the api aggregator: copy the
feature, delete `geometry`, run the (dead) guard, and on the street
collection of a STREET_INFO run collect the roadlink ids. -/
def processFeature (rt : RouteType) (cid : String) (feature : Json) :
    Except PyErr (Obj × List Json) :=
  match feature with
  | .obj o =>
    if hasKey (delKey o "geometry") "geometry" then
      .error (.valueError (geomGuardMsg cid))
    else if rt = RouteType.streetInfo ∧ cid = streetCollectionId then
      match extractRoadlinkIds o with
      | .error e => .error e
      | .ok ids => .ok (delKey o "geometry", ids)
    else .ok (delKey o "geometry", [])
  | _ => .error (.typeError "feature is not a dict")

/-- The inner feature loop over one collection's `features` list, returning
the stripped features in source order and the roadlink ids in reference
order. -/
def processFeaturesList (rt : RouteType) (cid : String) :
    List Json → Except PyErr (List Obj × List Json)
  | [] => .ok ([], [])
  | f :: rest =>
    match processFeature rt cid f with
    | .error e => .error e
    | .ok (fc, ids) =>
      match processFeaturesList rt cid rest with
      | .error e => .error e
      | .ok (fs, idss) => .ok (fc :: fs, ids ++ idss)

/-- Accumulator of the primary reduction loop: stripped features, running
latest timestamp, collected roadlink ids. -/
structure AggState where
  feats : List Obj
  ts : Option Json
  rids : List Json

/-- One iteration of the primary reduction loop: skip exceptions, skip
non-dict results and results without a `features` key, otherwise strip the
features, collect roadlink ids and update the running timestamp. -/
def stepCollection (rt : RouteType) (cid : String) (r : FetchResult) (st : AggState) :
    Except PyErr AggState :=
  match r with
  | .exn _ => .ok st
  | .val v =>
    match v with
    | .obj o =>
      match getKey o "features" with
      | none => .ok st
      | some fv =>
        match iterElems fv with
        | .error e => .error e
        | .ok elems =>
          match processFeaturesList rt cid elems with
          | .error e => .error e
          | .ok (fs, ids) =>
            match updateTimestamp o st.ts with
            | .error e => .error e
            | .ok ts => .ok ⟨st.feats ++ fs, ts, st.rids ++ ids⟩
    | _ => .ok st

/-- The primary reduction loop `for collection_id, result in
zip(collection_ids, feature_results)`. -/
def foldCollections (rt : RouteType) :
    List (String × FetchResult) → AggState → Except PyErr AggState
  | [], st => .ok st
  | (cid, r) :: rest, st =>
    match stepCollection rt cid r st with
    | .error e => .error e
    | .ok st2 => foldCollections rt rest st2

/-- One iteration of the roadlink result loop: skip exceptions, non-dicts
and results without `properties`; otherwise strip geometry, append if
`properties` survived, and update the running timestamp. -/
def roadStep (r : FetchResult) (st : List Obj × Option Json) :
    Except PyErr (List Obj × Option Json) :=
  match r with
  | .exn _ => .ok st
  | .val v =>
    match v with
    | .obj o =>
      if hasKey o "properties" then
        match updateTimestamp o st.2 with
        | .error e => .error e
        | .ok ts =>
          .ok (if hasKey (delKey o "geometry") "properties"
               then st.1 ++ [delKey o "geometry"] else st.1, ts)
      else .ok st
    | _ => .ok st

/-- The roadlink result loop `for roadlink_id, roadlink_result in
zip(roadlink_ids, roadlink_results)`. -/
def roadFold : List FetchResult → (List Obj × Option Json) → Except PyErr (List Obj × Option Json)
  | [], st => .ok st
  | r :: rest, st =>
    match roadStep r st with
    | .error e => .error e
    | .ok st2 => roadFold rest st2

/-- Python `latest_timestamp or ""`. -/
def orEmptyStr : Option Json → Json
  | none => .str ""
  | some v => if pyTruthy v then v else .str ""

/-- The returned FeatureCollection dict. -/
def mkOutput (feats : List Obj) (ts : Option Json) : Obj :=
  [("type", Json.str "FeatureCollection"),
   ("numberReturned", Json.num (feats.length : Int)),
   ("timeStamp", orEmptyStr ts),
   ("features", Json.arr (feats.map Json.obj))]

/-- The upstream OS NGD API, abstracted: responses of
`get_single_collection_feature` keyed by the exact call shape the
aggregator uses (attribute query, bbox query, fetch by feature id). -/
structure Oracle where
  byAttr : String → String → String → FetchResult
  byBBox : String → String → String → String → FetchResult
  byId : String → Json → FetchResult

/-- The static collection-id tables of the two routes. -/
def queryCollections : RouteType → List String
  | .streetInfo =>
    ["trn-ntwk-street-1",
     "trn-rami-specialdesignationarea-1",
     "trn-rami-specialdesignationline-1",
     "trn-rami-specialdesignationpoint-1"]
  | .landUse => ["lus-fts-site-1"]

/-- The collection queried in the roadlink join phase. -/
def roadlinkCollectionId : String := "trn-ntwk-roadlink-5"

/-- Default CRS URI used for land-use queries. -/
def crsDefault : String := "http://www.opengis.net/def/crs/EPSG/0/27700"

/-- Python `x or default` on an optional string. -/
def orDefaultStr (o : Option String) (d : String) : String :=
  match o with
  | none => d
  | some s => if s = "" then d else s

/-- Python falsiness of an optional string (`not bbox`). -/
def falsyOptStr (o : Option String) : Bool :=
  match o with
  | none => true
  | some s => s == ""

/-- Building the primary query set and its (submission-ordered) results:
STREET_INFO queries four collections by the `usrn` attribute; LAND_USE
validates the bbox and queries one collection by bbox. -/
def mkPrimResults (oracle : Oracle) (rt : RouteType) (usrn : String)
    (bbox bboxCrs crs : Option String) : Except PyErr (List FetchResult) :=
  match rt with
  | .streetInfo =>
    .ok ((queryCollections RouteType.streetInfo).map
      (fun cid => oracle.byAttr cid "usrn" usrn))
  | .landUse =>
    if falsyOptStr bbox then
      .error (.valueError "A valid bbox is required for land use queries")
    else
      .ok ((queryCollections RouteType.landUse).map
        (fun cid => oracle.byBBox cid (bbox.getD "")
          (orDefaultStr bboxCrs crsDefault) (orDefaultStr crs crsDefault)))

/-- The two reduction phases of the api aggregator: the primary fold, then
(`STREET_INFO` with a non-empty join list only) the roadlink fold, and the
final assembly of the output dict. -/
def aggregatePhases (rt : RouteType) (prims : List FetchResult)
    (roadFetch : List Json → List FetchResult) : Except PyErr Obj :=
  match foldCollections rt ((queryCollections rt).zip prims) ⟨[], none, []⟩ with
  | .error e => .error e
  | .ok st =>
    match rt, st.rids with
    | RouteType.streetInfo, _ :: _ =>
      match roadFold (roadFetch st.rids) (st.feats, st.ts) with
      | .error e => .error e
      | .ok p => .ok (mkOutput p.1 p.2)
    | _, _ => .ok (mkOutput st.feats st.ts)

/-- The api `process_single_collection` of
`src/backend/api/processors/features/feature_processor.py`, with upstream
responses supplied by `oracle` and gather results in submission order. -/
def process_single_collection (oracle : Oracle) (pathType usrn : String)
    (bbox bboxCrs crs : Option String) : Except PyErr Obj :=
  if usrn = "" then .error (.valueError "A valid usrn is required")
  else
    match parseRouteType pathType with
    | .error e => .error e
    | .ok rt =>
      match mkPrimResults oracle rt usrn bbox bboxCrs crs with
      | .error e => .error e
      | .ok prims =>
        aggregatePhases rt prims
          (fun ids => ids.map (oracle.byId roadlinkCollectionId))

/-!
Completion-order model of `asyncio.gather`.  The concurrent fetches finish
in some schedule (a permutation of the task indices); each completion
stores its result in the slot of its own task, and `gather` hands back the
slots in task submission order.  `completeEvents` is the completion log,
`gatherSched` the reassembled result list.
-/

/-- The completion log of the tasks under a completion schedule. -/
def completeEvents (results : List FetchResult) (sched : List Nat) :
    List (Nat × FetchResult) :=
  sched.filterMap (fun i => (results.get? i).map (fun r => (i, r)))

/-- Reassembly of gather results in submission order from the completion
log. -/
def gatherSched (results : List FetchResult) (sched : List Nat) : List FetchResult :=
  (List.range results.length).filterMap
    (fun i => (completeEvents results sched).lookup i)

/-- The api `process_single_collection` with the two `asyncio.gather`
fan-outs completing in the explicit schedules `sched` (primary phase) and
`rsched` (roadlink phase). -/
def process_single_collection_sched (oracle : Oracle) (pathType usrn : String)
    (bbox bboxCrs crs : Option String) (sched rsched : List Nat) : Except PyErr Obj :=
  if usrn = "" then .error (.valueError "A valid usrn is required")
  else
    match parseRouteType pathType with
    | .error e => .error e
    | .ok rt =>
      match mkPrimResults oracle rt usrn bbox bboxCrs crs with
      | .error e => .error e
      | .ok prims =>
        aggregatePhases rt (gatherSched prims sched)
          (fun ids => gatherSched (ids.map (oracle.byId roadlinkCollectionId)) rsched)

/-- The roadlink ids collected by the canonical (submission-ordered) run;
empty whenever the run stops before the join phase. -/
def canonicalRids (oracle : Oracle) (pathType usrn : String)
    (bbox bboxCrs crs : Option String) : List Json :=
  if usrn = "" then []
  else
    match parseRouteType pathType with
    | .error _ => []
    | .ok rt =>
      match mkPrimResults oracle rt usrn bbox bboxCrs crs with
      | .error _ => []
      | .ok prims =>
        match foldCollections rt ((queryCollections rt).zip prims) ⟨[], none, []⟩ with
        | .error _ => []
        | .ok st => st.rids

/-!
Legacy variant, `src/backend/robyn_lib`.
-/

/-- Route types of `src/backend/robyn_lib/routes/route_handler.py`. -/
inductive LegacyRouteType where
  | streetInfo
  | landUse
  | collaborativeStreetWorks
deriving DecidableEq

/-- The legacy `RouteType(path_type)` enum constructor. -/
def parseLegacyRouteType (pt : String) : Except PyErr LegacyRouteType :=
  if pt = "street-info" then .ok LegacyRouteType.streetInfo
  else if pt = "land-use" then .ok LegacyRouteType.landUse
  else if pt = "collaborative-street-works" then .ok LegacyRouteType.collaborativeStreetWorks
  else .error (.valueError (quoteMark ++ pt ++ quoteMark ++ " is not a valid RouteType"))

/-- One iteration of the legacy inner feature loop: copy, delete
`geometry`, run the (dead) guard.  The legacy loop collects no roadlink
ids. -/
def stripFeature (cid : String) (feature : Json) : Except PyErr Obj :=
  match feature with
  | .obj o =>
    if hasKey (delKey o "geometry") "geometry" then
      .error (.valueError (geomGuardMsg cid))
    else .ok (delKey o "geometry")
  | _ => .error (.typeError "feature is not a dict")

/-- The legacy inner feature loop over one collection. -/
def stripFeaturesList (cid : String) : List Json → Except PyErr (List Obj)
  | [] => .ok []
  | f :: rest =>
    match stripFeature cid f with
    | .error e => .error e
    | .ok fc =>
      match stripFeaturesList cid rest with
      | .error e => .error e
      | .ok fs => .ok (fc :: fs)

/-- One iteration of the legacy reduction loop. -/
def legacyStep (cid : String) (r : FetchResult) (st : List Obj × Option Json) :
    Except PyErr (List Obj × Option Json) :=
  match r with
  | .exn _ => .ok st
  | .val v =>
    match v with
    | .obj o =>
      match getKey o "features" with
      | none => .ok st
      | some fv =>
        match iterElems fv with
        | .error e => .error e
        | .ok elems =>
          match stripFeaturesList cid elems with
          | .error e => .error e
          | .ok fs =>
            match updateTimestamp o st.2 with
            | .error e => .error e
            | .ok ts => .ok (st.1 ++ fs, ts)
    | _ => .ok st

/-- The legacy reduction loop. -/
def legacyFold : List (String × FetchResult) → (List Obj × Option Json) →
    Except PyErr (List Obj × Option Json)
  | [], st => .ok st
  | (cid, r) :: rest, st =>
    match legacyStep cid r st with
    | .error e => .error e
    | .ok st2 => legacyFold rest st2

/-- The legacy fold over one query set followed by the output assembly. -/
def legacyAggregate (cids : List String) (results : List FetchResult) : Except PyErr Obj :=
  match legacyFold (cids.zip results) ([], none) with
  | .error e => .error e
  | .ok p => .ok (mkOutput p.1 p.2)

/-- The legacy `process_single_collection` of
`src/backend/robyn_lib/processors/features/feature_processor.py`: same
validation, query sets and reduction as the api variant, but no roadlink
join phase, and all of `bbox`, `bbox_crs`, `crs` are plain strings. -/
def legacy_process_single_collection (oracle : Oracle)
    (pathType usrn bbox bboxCrs crs : String) : Except PyErr Obj :=
  if usrn = "" then .error (.valueError "A valid usrn is required")
  else
    match parseLegacyRouteType pathType with
    | .error e => .error e
    | .ok rt =>
      match rt with
      | LegacyRouteType.streetInfo =>
        legacyAggregate (queryCollections RouteType.streetInfo)
          ((queryCollections RouteType.streetInfo).map
            (fun cid => oracle.byAttr cid "usrn" usrn))
      | LegacyRouteType.landUse =>
        if bbox = "" then
          .error (.valueError "A valid bbox is required for land use queries")
        else
          legacyAggregate (queryCollections RouteType.landUse)
            ((queryCollections RouteType.landUse).map (fun cid =>
              oracle.byBBox cid bbox (if bboxCrs = "" then crsDefault else bboxCrs)
                (if crs = "" then crsDefault else crs)))
      | LegacyRouteType.collaborativeStreetWorks =>
        .error (.valueError ("Unsupported path type: " ++ pathType))

/-- The legacy `OSFeatureService.get_features` of
`src/backend/robyn_lib/services/services.py`: every parameter must be
non-None before the aggregator is called. -/
def get_features (oracle : Oracle) (pathType : String)
    (usrn bbox bboxCrs crs : Option String) : Except PyErr Obj :=
  match usrn, bbox, bboxCrs, crs with
  | some u, some b, some bc, some c =>
    legacy_process_single_collection oracle pathType u b bc c
  | _, _, _, _ => .error (.valueError "All parameters must be provided")

/-!
BBox resolver, `src/backend/api/processors/bbox/bbox_processor.py`.

The geometry store row and the shapely buffer are abstracted: `store`
gives the stored geometry of a USRN (of an abstract type `G`) and
`bufferBounds` gives the bounds `(minx, miny, maxx, maxy)` of the buffered
geometry.  Double-precision coordinates are exact rationals, and Python's
`round` on a float is exactly round-half-to-even on the rational the float
denotes, which `pyRound` implements.
-/

/-- Python `round(q)`: the nearest integer, ties to the even one. -/
def pyRound (q : ℚ) : ℤ :=
  if q - (Rat.floor q : ℚ) < 1/2 then Rat.floor q
  else if (1 : ℚ)/2 < q - (Rat.floor q : ℚ) then Rat.floor q + 1
  else if Rat.floor q % 2 = 0 then Rat.floor q else Rat.floor q + 1

/-- The `get_bbox_from_usrn` of the bbox processor: check the schema/table
configuration, look up the USRN's geometry (no row raises `ValueError`),
buffer it, and return the bounds rounded with Python `round`. -/
def get_bbox_from_usrn {G : Type} (bufferBounds : G → ℚ → ℚ × ℚ × ℚ × ℚ)
    (store : String → Option G) (schema tableName : Option String)
    (usrn : String) (bufferDistance : ℚ) : Except PyErr (ℤ × ℤ × ℤ × ℤ) :=
  if falsyOptStr schema || falsyOptStr tableName then
    .error (.valueError "Missing schema or table name environment variables")
  else
    match store usrn with
    | none => .error (.valueError ("No geometry found for USRN: " ++ usrn))
    | some g =>
      .ok (pyRound (bufferBounds g bufferDistance).1,
           pyRound (bufferBounds g bufferDistance).2.1,
           pyRound (bufferBounds g bufferDistance).2.2.1,
           pyRound (bufferBounds g bufferDistance).2.2.2)

/-!
Basic dictionary lemmas.
-/

theorem getKey_delKey (o : Obj) (k : String) : getKey (delKey o k) k = none := by
  induction o with
  | nil => rfl
  | cons p o ih =>
    rcases p with ⟨k1, v1⟩
    by_cases h : k1 = k
    · subst h
      simpa [delKey, List.filter_cons] using ih
    · have hk1 : ((k1, v1).1 != k) = true := by simpa using h
      have hbk : (k == k1) = false := by simpa using Ne.symm h
      simp only [delKey, List.filter_cons, hk1, if_true]
      simp only [getKey, List.lookup, hbk]
      exact ih

theorem hasKey_delKey (o : Obj) (k : String) : hasKey (delKey o k) k = false := by
  simp [hasKey, getKey_delKey]

theorem getKey_mkOutput_num (feats : List Obj) (ts : Option Json) :
    getKey (mkOutput feats ts) "numberReturned" = some (Json.num (feats.length : Int)) := rfl

theorem getKey_mkOutput_features (feats : List Obj) (ts : Option Json) :
    getKey (mkOutput feats ts) "features" = some (Json.arr (feats.map Json.obj)) := rfl

theorem getKey_mkOutput_ts (feats : List Obj) (ts : Option Json) :
    getKey (mkOutput feats ts) "timeStamp" = some (orEmptyStr ts) := rfl

/-- The executable Python string comparison agrees with the string order. -/
theorem pyStrLtChars_iff : ∀ l1 l2 : List Char, pyStrLtChars l1 l2 = true ↔ l1 < l2 := by
  intro l1
  induction l1 with
  | nil =>
    intro l2
    cases l2 with
    | nil =>
      refine iff_of_false (by simp [pyStrLtChars]) (fun h => ?_)
      cases h
    | cons b bs => exact iff_of_true rfl List.Lex.nil
  | cons a as ih =>
    intro l2
    cases l2 with
    | nil =>
      refine iff_of_false (by simp [pyStrLtChars]) (fun h => ?_)
      cases h
    | cons b bs =>
      by_cases h1 : a.toNat < b.toNat
      · have hb1 : Nat.blt a.toNat b.toNat = true := Nat.blt_eq ▸ h1
        simp only [pyStrLtChars, hb1, if_true]
        exact iff_of_true trivial (List.Lex.rel (Char.lt_iff_val_lt_val.mpr h1))
      · have hb1 : Nat.blt a.toNat b.toNat = false := by
          cases hB : Nat.blt a.toNat b.toNat
          · rfl
          · exact absurd (Nat.blt_eq ▸ hB) h1
        by_cases h2 : b.toNat < a.toNat
        · have hb2 : Nat.blt b.toNat a.toNat = true := Nat.blt_eq ▸ h2
          simp only [pyStrLtChars, hb1, hb2, Bool.false_eq_true, if_false, if_true]
          refine iff_of_false (by simp) (fun h => ?_)
          cases h with
          | rel hab => exact absurd (Char.lt_iff_val_lt_val.mp hab) h1
          | cons htl => exact absurd h2 (lt_irrefl _)
        · have hb2 : Nat.blt b.toNat a.toNat = false := by
            cases hB : Nat.blt b.toNat a.toNat
            · rfl
            · exact absurd (Nat.blt_eq ▸ hB) h2
          have hnab : ¬ a < b := fun h => h1 (Char.lt_iff_val_lt_val.mp h)
          have hnba : ¬ b < a := fun h => h2 (Char.lt_iff_val_lt_val.mp h)
          have hab : a = b := le_antisymm (le_of_not_lt hnba) (le_of_not_lt hnab)
          subst hab
          simp only [pyStrLtChars, hb1, hb2, Bool.false_eq_true, if_false]
          rw [ih bs]
          constructor
          · intro h
            exact List.Lex.cons h
          · intro h
            cases h with
            | rel hab2 => exact absurd hab2 (lt_irrefl a)
            | cons htl => exact htl

theorem pyStrLt_iff (a b : String) : pyStrLt a b = true ↔ a < b := by
  rw [String.lt_iff_toList_lt]
  exact pyStrLtChars_iff a.data b.data

theorem pyStrLt_eq_decide (a b : String) : pyStrLt a b = decide (a < b) := by
  by_cases h : a < b
  · simp [h, (pyStrLt_iff a b).mpr h]
  · have hf : pyStrLt a b = false := by
      cases hB : pyStrLt a b
      · rfl
      · exact absurd ((pyStrLt_iff a b).mp hB) h
    simp [h, hf]

/-- Reduced form of `processFeature` on a dict: the geometry guard branch
is eliminated because deletion really removes the key. -/
theorem processFeature_obj (rt : RouteType) (cid : String) (o : Obj) :
    processFeature rt cid (Json.obj o) =
      (if rt = RouteType.streetInfo ∧ cid = streetCollectionId then
        match extractRoadlinkIds o with
        | .error e => .error e
        | .ok ids => .ok (delKey o "geometry", ids)
      else .ok (delKey o "geometry", [])) := by
  simp [processFeature, hasKey_delKey]

/-!
Shape of every successful aggregator run: the output is `mkOutput` of an
accumulated feature list in which every feature has had `geometry`
removed.
-/

theorem processFeature_geom {rt : RouteType} {cid : String} {f : Json} {fc : Obj}
    {ids : List Json} (h : processFeature rt cid f = .ok (fc, ids)) :
    getKey fc "geometry" = none := by
  cases f with
  | obj o =>
    rw [processFeature_obj] at h
    by_cases hc : rt = RouteType.streetInfo ∧ cid = streetCollectionId
    · rw [if_pos hc] at h
      cases hx : extractRoadlinkIds o with
      | error e =>
        rw [hx] at h
        exact Except.noConfusion h
      | ok ids2 =>
        rw [hx] at h
        cases Except.ok.inj h
        exact getKey_delKey o "geometry"
    · rw [if_neg hc] at h
      cases Except.ok.inj h
      exact getKey_delKey o "geometry"
  | null => exact Except.noConfusion h
  | bool b => exact Except.noConfusion h
  | num n => exact Except.noConfusion h
  | str s => exact Except.noConfusion h
  | arr l => exact Except.noConfusion h

theorem processFeaturesList_geom {rt : RouteType} {cid : String} :
    ∀ {l : List Json} {fs : List Obj} {ids : List Json},
      processFeaturesList rt cid l = .ok (fs, ids) →
      ∀ f ∈ fs, getKey f "geometry" = none := by
  intro l
  induction l with
  | nil =>
    intro fs ids h f hf
    cases Except.ok.inj h
    cases hf
  | cons x rest ih =>
    intro fs ids h f hf
    cases hx : processFeature rt cid x with
    | error e =>
      simp only [processFeaturesList, hx] at h
      exact Except.noConfusion h
    | ok pr =>
      obtain ⟨fc, ids1⟩ := pr
      cases hr : processFeaturesList rt cid rest with
      | error e =>
        simp only [processFeaturesList, hx, hr] at h
        exact Except.noConfusion h
      | ok pr2 =>
        obtain ⟨fs2, ids2⟩ := pr2
        simp only [processFeaturesList, hx, hr, Except.ok.injEq, Prod.mk.injEq] at h
        obtain ⟨h1, h2⟩ := h
        subst h1
        rcases List.mem_cons.mp hf with rfl | hmem
        · exact processFeature_geom hx
        · exact ih hr f hmem

theorem stepCollection_geom {rt : RouteType} {cid : String} {r : FetchResult}
    {st st' : AggState} (h : stepCollection rt cid r st = .ok st')
    (hst : ∀ f ∈ st.feats, getKey f "geometry" = none) :
    ∀ f ∈ st'.feats, getKey f "geometry" = none := by
  cases r with
  | exn m =>
    cases Except.ok.inj h
    exact hst
  | val v =>
    cases v with
    | obj o =>
      cases hk : getKey o "features" with
      | none =>
        simp only [stepCollection, hk] at h
        cases h
        exact hst
      | some fv =>
        cases he : iterElems fv with
        | error e =>
          simp only [stepCollection, hk, he] at h
          exact Except.noConfusion h
        | ok elems =>
          cases hp : processFeaturesList rt cid elems with
          | error e =>
            simp only [stepCollection, hk, he, hp] at h
            exact Except.noConfusion h
          | ok pr =>
            obtain ⟨fs, ids⟩ := pr
            cases ht : updateTimestamp o st.ts with
            | error e =>
              simp only [stepCollection, hk, he, hp, ht] at h
              exact Except.noConfusion h
            | ok ts2 =>
              simp only [stepCollection, hk, he, hp, ht] at h
              cases h
              intro f hf
              rcases List.mem_append.mp hf with hf | hf
              · exact hst f hf
              · exact processFeaturesList_geom hp f hf
    | null => cases Except.ok.inj h; exact hst
    | bool b => cases Except.ok.inj h; exact hst
    | num n => cases Except.ok.inj h; exact hst
    | str s => cases Except.ok.inj h; exact hst
    | arr l => cases Except.ok.inj h; exact hst

theorem foldCollections_geom {rt : RouteType} :
    ∀ {pairs : List (String × FetchResult)} {st st' : AggState},
      foldCollections rt pairs st = .ok st' →
      (∀ f ∈ st.feats, getKey f "geometry" = none) →
      ∀ f ∈ st'.feats, getKey f "geometry" = none := by
  intro pairs
  induction pairs with
  | nil =>
    intro st st' h hst
    cases Except.ok.inj h
    exact hst
  | cons p rest ih =>
    intro st st' h hst
    obtain ⟨cid, r⟩ := p
    cases hs : stepCollection rt cid r st with
    | error e =>
      simp only [foldCollections, hs] at h
      exact Except.noConfusion h
    | ok st2 =>
      simp only [foldCollections, hs] at h
      exact ih h (stepCollection_geom hs hst)

theorem roadStep_geom {r : FetchResult} {st st' : List Obj × Option Json}
    (h : roadStep r st = .ok st')
    (hst : ∀ f ∈ st.1, getKey f "geometry" = none) :
    ∀ f ∈ st'.1, getKey f "geometry" = none := by
  cases r with
  | exn m => cases Except.ok.inj h; exact hst
  | val v =>
    cases v with
    | obj o =>
      by_cases hp : hasKey o "properties" = true
      · cases ht : updateTimestamp o st.2 with
        | error e =>
          simp only [roadStep, hp, if_true, ht] at h
          exact Except.noConfusion h
        | ok ts2 =>
          simp only [roadStep, hp, if_true, ht] at h
          cases h
          intro f hf
          by_cases hq : hasKey (delKey o "geometry") "properties" = true
          · rw [if_pos hq] at hf
            rcases List.mem_append.mp hf with hf | hf
            · exact hst f hf
            · rcases List.mem_singleton.mp hf with rfl
              exact getKey_delKey o "geometry"
          · rw [if_neg hq] at hf
            exact hst f hf
      · simp only [roadStep, hp, if_false] at h
        cases h
        exact hst
    | null => cases Except.ok.inj h; exact hst
    | bool b => cases Except.ok.inj h; exact hst
    | num n => cases Except.ok.inj h; exact hst
    | str s => cases Except.ok.inj h; exact hst
    | arr l => cases Except.ok.inj h; exact hst

theorem roadFold_geom :
    ∀ {rs : List FetchResult} {st st' : List Obj × Option Json},
      roadFold rs st = .ok st' →
      (∀ f ∈ st.1, getKey f "geometry" = none) →
      ∀ f ∈ st'.1, getKey f "geometry" = none := by
  intro rs
  induction rs with
  | nil =>
    intro st st' h hst
    cases Except.ok.inj h
    exact hst
  | cons r rest ih =>
    intro st st' h hst
    cases hs : roadStep r st with
    | error e =>
      simp only [roadFold, hs] at h
      exact Except.noConfusion h
    | ok st2 =>
      simp only [roadFold, hs] at h
      exact ih h (roadStep_geom hs hst)

theorem aggregatePhases_ok_shape {rt : RouteType} {prims : List FetchResult}
    {rf : List Json → List FetchResult} {out : Obj}
    (h : aggregatePhases rt prims rf = .ok out) :
    ∃ feats ts, out = mkOutput feats ts ∧ ∀ f ∈ feats, getKey f "geometry" = none := by
  cases hfold : foldCollections rt ((queryCollections rt).zip prims) ⟨[], none, []⟩ with
  | error e =>
    simp only [aggregatePhases, hfold] at h
    exact Except.noConfusion h
  | ok st =>
    have hst := foldCollections_geom hfold (by intro f hf; cases hf)
    cases rt with
    | landUse =>
      simp only [aggregatePhases, hfold] at h
      cases h
      exact ⟨st.feats, st.ts, rfl, hst⟩
    | streetInfo =>
      cases hr : st.rids with
      | nil =>
        simp only [aggregatePhases, hfold, hr] at h
        cases h
        exact ⟨st.feats, st.ts, rfl, hst⟩
      | cons i tl =>
        cases hroad : roadFold (rf (i :: tl)) (st.feats, st.ts) with
        | error e =>
          simp only [aggregatePhases, hfold, hr, hroad] at h
          exact Except.noConfusion h
        | ok p =>
          simp only [aggregatePhases, hfold, hr, hroad] at h
          cases h
          exact ⟨p.1, p.2, rfl, roadFold_geom hroad hst⟩

theorem process_ok_shape {oracle : Oracle} {pt u : String} {b bc c : Option String}
    {out : Obj} (h : process_single_collection oracle pt u b bc c = .ok out) :
    ∃ feats ts, out = mkOutput feats ts ∧ ∀ f ∈ feats, getKey f "geometry" = none := by
  by_cases hu : u = ""
  · simp only [process_single_collection, hu, if_true] at h
    exact Except.noConfusion h
  · cases hpt : parseRouteType pt with
    | error e =>
      simp only [process_single_collection, hu, if_false, hpt] at h
      exact Except.noConfusion h
    | ok rt =>
      cases hm : mkPrimResults oracle rt u b bc c with
      | error e =>
        simp only [process_single_collection, hu, if_false, hpt, hm] at h
        exact Except.noConfusion h
      | ok prims =>
        simp only [process_single_collection, hu, if_false, hpt, hm] at h
        exact aggregatePhases_ok_shape h

theorem legacyAggregate_ok_shape {cids : List String} {results : List FetchResult}
    {out : Obj} (h : legacyAggregate cids results = .ok out) :
    ∃ feats ts, out = mkOutput feats ts := by
  cases hf : legacyFold (cids.zip results) ([], none) with
  | error e =>
    simp only [legacyAggregate, hf] at h
    exact Except.noConfusion h
  | ok p =>
    simp only [legacyAggregate, hf] at h
    cases h
    exact ⟨p.1, p.2, rfl⟩

theorem legacy_ok_shape {oracle : Oracle} {pt u b bc c : String} {out : Obj}
    (h : legacy_process_single_collection oracle pt u b bc c = .ok out) :
    ∃ feats ts, out = mkOutput feats ts := by
  by_cases hu : u = ""
  · simp only [legacy_process_single_collection, hu, if_true] at h
    exact Except.noConfusion h
  · cases hpt : parseLegacyRouteType pt with
    | error e =>
      simp only [legacy_process_single_collection, hu, if_false, hpt] at h
      exact Except.noConfusion h
    | ok rt =>
      cases rt with
      | streetInfo =>
        simp only [legacy_process_single_collection, hu, if_false, hpt] at h
        exact legacyAggregate_ok_shape h
      | landUse =>
        by_cases hb : b = ""
        · simp only [legacy_process_single_collection, hu, if_false, hpt, hb, if_true] at h
          exact Except.noConfusion h
        · simp only [legacy_process_single_collection, hu, if_false, hpt, hb, if_false] at h
          exact legacyAggregate_ok_shape h
      | collaborativeStreetWorks =>
        simp only [legacy_process_single_collection, hu, if_false, hpt] at h
        exact Except.noConfusion h

/-!
Claim theorems: count invariant, geometry stripping, legacy parameter
check, mandatory validation.
-/

/-- An upstream that fails every call; used to instantiate universally
quantified theorems at a concrete input. -/
def emptyOracle : Oracle :=
  ⟨fun _ _ _ => .exn "boom", fun _ _ _ _ => .exn "boom", fun _ _ => .exn "boom"⟩

/-- The `features` list of a returned FeatureCollection dict. -/
def featureObjsOf (out : Obj) : List Json :=
  match getKey out "features" with
  | some (Json.arr l) => l
  | _ => []

/-- C3: every FeatureCollection returned by `process_single_collection`
(either variant, any route type, any fetch outcomes) satisfies
`numberReturned == len(features)`. -/
theorem C3_count_invariant :
    (∀ (oracle : Oracle) (pt u : String) (b bc c : Option String) (out : Obj),
      process_single_collection oracle pt u b bc c = Except.ok out →
      ∃ n l, getKey out "numberReturned" = some (Json.num n) ∧
        getKey out "features" = some (Json.arr l) ∧ n = (l.length : Int)) ∧
    (∀ (oracle : Oracle) (pt u b bc c : String) (out : Obj),
      legacy_process_single_collection oracle pt u b bc c = Except.ok out →
      ∃ n l, getKey out "numberReturned" = some (Json.num n) ∧
        getKey out "features" = some (Json.arr l) ∧ n = (l.length : Int)) := by
  constructor
  · intro oracle pt u b bc c out h
    obtain ⟨feats, ts, rfl, -⟩ := process_ok_shape h
    exact ⟨feats.length, feats.map Json.obj, rfl, rfl, by simp⟩
  · intro oracle pt u b bc c out h
    obtain ⟨feats, ts, rfl⟩ := legacy_ok_shape h
    exact ⟨feats.length, feats.map Json.obj, rfl, rfl, by simp⟩

/-- Witness for C3 at a concrete input: a STREET_INFO aggregation in which
every fetch fails returns the empty FeatureCollection. -/
theorem C3_count_invariant_witness :
    ∃ n l, getKey (mkOutput [] none) "numberReturned" = some (Json.num n) ∧
      getKey (mkOutput [] none) "features" = some (Json.arr l) ∧ n = (l.length : Int) :=
  C3_count_invariant.1 emptyOracle "street-info" "100" none none none (mkOutput [] none) rfl

/-- An upstream whose street collection returns one feature that still
carries a `geometry` payload. -/
def cx2Oracle : Oracle :=
  ⟨fun cid _ _ =>
      if cid = streetCollectionId then
        .val (Json.obj [("features",
          Json.arr [Json.obj [("id", Json.num 1), ("geometry", Json.null)]])])
      else .exn "down",
   fun _ _ _ _ => .exn "down",
   fun _ _ => .exn "down"⟩

/-- C2: every feature object in the `features` list of a FeatureCollection
returned by `process_single_collection` has no `geometry` key, for any
route type and any fetch outcomes, primary and roadlink features alike. -/
theorem C2_geometry_stripped :
    ∀ (oracle : Oracle) (pt u : String) (b bc c : Option String) (out : Obj),
      process_single_collection oracle pt u b bc c = Except.ok out →
      ∀ j ∈ featureObjsOf out, ∀ o, j = Json.obj o → getKey o "geometry" = none := by
  intro oracle pt u b bc c out h j hj o hjo
  subst hjo
  obtain ⟨feats, ts, rfl, hclean⟩ := process_ok_shape h
  have hfo : featureObjsOf (mkOutput feats ts) = feats.map Json.obj := rfl
  rw [hfo] at hj
  obtain ⟨f, hf, hfeq⟩ := List.mem_map.mp hj
  cases Json.obj.inj hfeq
  exact hclean _ hf

/-- Witness for C2 at a concrete input: the geometry-bearing street
feature of `cx2Oracle` comes back stripped. -/
theorem C2_geometry_stripped_witness :
    getKey [("id", Json.num 1)] "geometry" = none :=
  C2_geometry_stripped cx2Oracle "street-info" "100" none none none
    (mkOutput [[("id", Json.num 1)]] none) rfl
    (Json.obj [("id", Json.num 1)]) (List.mem_singleton.mpr rfl)
    [("id", Json.num 1)] rfl

/-- C10: the legacy `OSFeatureService.get_features` raises
`ValueError("All parameters must be provided")` whenever any of `usrn`,
`bbox`, `bbox_crs`, `crs` is None, for every route type, before any
aggregation (the result does not depend on the upstream oracle). -/
theorem C10_legacy_none_check :
    ∀ (oracle : Oracle) (pt : String) (u b bc c : Option String),
      u = none ∨ b = none ∨ bc = none ∨ c = none →
      get_features oracle pt u b bc c =
        Except.error (.valueError "All parameters must be provided") := by
  intro oracle pt u b bc c h
  cases u with
  | none => rfl
  | some u0 =>
    cases b with
    | none => rfl
    | some b0 =>
      cases bc with
      | none => rfl
      | some bc0 =>
        cases c with
        | none => rfl
        | some c0 =>
          rcases h with h | h | h | h <;> exact Option.noConfusion h

/-- Witness for C10 at a concrete input. -/
theorem C10_legacy_none_check_witness :
    get_features emptyOracle "street-info" none (some "1,2,3,4") (some "crs") (some "crs") =
      Except.error (.valueError "All parameters must be provided") :=
  C10_legacy_none_check emptyOracle "street-info" none (some "1,2,3,4") (some "crs")
    (some "crs") (Or.inl rfl)

/-- C7: LAND_USE with a missing or empty bbox fails validation with
`ValueError` for every upstream oracle (so before any fetch), and an empty
usrn fails validation for every route type and oracle. -/
theorem C7_validation :
    (∀ (oracle : Oracle) (u : String) (b bc c : Option String),
      u ≠ "" → (b = none ∨ b = some "") →
      process_single_collection oracle "land-use" u b bc c =
        Except.error (.valueError "A valid bbox is required for land use queries")) ∧
    (∀ (oracle : Oracle) (pt : String) (b bc c : Option String),
      process_single_collection oracle pt "" b bc c =
        Except.error (.valueError "A valid usrn is required")) := by
  constructor
  · intro oracle u b bc c hu hb
    unfold process_single_collection
    rw [if_neg hu]
    rcases hb with rfl | rfl <;> rfl
  · intro oracle pt b bc c
    rfl

/-- Witness for C7 at concrete inputs: an empty-string bbox and a missing
usrn both fail validation. -/
theorem C7_validation_witness :
    process_single_collection emptyOracle "land-use" "100" (some "") none none =
      Except.error (.valueError "A valid bbox is required for land use queries") ∧
    process_single_collection emptyOracle "street-info" "" none none none =
      Except.error (.valueError "A valid usrn is required") :=
  ⟨C7_validation.1 emptyOracle "100" (some "") none none (by decide) (Or.inr rfl),
   C7_validation.2 emptyOracle "street-info" none none none⟩

/-!
The internal geometry guard is dead code: after `del feature_copy
["geometry"]` the membership check cannot be true, so neither aggregator
variant ever raises the ValueError whose message begins with
`Failed to remove geometry from feature in`.
-/

/-- Whether a result is the internal geometry-guard ValueError. -/
def isGeomGuardErr (r : Except PyErr Obj) : Bool :=
  match r with
  | .error (.valueError m) => "Failed to remove geometry from feature in ".data.isPrefixOf m.data
  | _ => false

/-- Whether an exception is anything but the internal geometry guard. -/
def errNotGuard (e : PyErr) : Bool :=
  match e with
  | .valueError m => !("Failed to remove geometry from feature in ".data.isPrefixOf m.data)
  | .typeError _ => true

theorem isGeomGuardErr_of_errNotGuard {e : PyErr} (h : errNotGuard e = true) :
    isGeomGuardErr (.error e) = false := by
  cases e with
  | valueError m =>
    simpa [errNotGuard, isGeomGuardErr] using h
  | typeError m => rfl

theorem headNeGuard {c : Char} (h : ('F' == c) = false) (l : List Char) :
    "Failed to remove geometry from feature in ".data.isPrefixOf (c :: l) = false := by
  have hd : "Failed to remove geometry from feature in ".data =
      'F' :: "ailed to remove geometry from feature in ".data := rfl
  rw [hd]
  simp [List.isPrefixOf, h]

theorem errNotGuard_parse {pt : String} {e : PyErr}
    (h : parseRouteType pt = .error e) : errNotGuard e = true := by
  unfold parseRouteType at h
  by_cases h1 : pt = "street-info"
  · rw [if_pos h1] at h; exact Except.noConfusion h
  · rw [if_neg h1] at h
    by_cases h2 : pt = "land-use"
    · rw [if_pos h2] at h; exact Except.noConfusion h
    · rw [if_neg h2] at h
      cases Except.error.inj h
      have hdata : (quoteMark ++ pt ++ quoteMark ++ " is not a valid RouteType").data =
          Char.ofNat 39 :: (pt.data ++ quoteMark.data ++ " is not a valid RouteType".data) := by
        simp [String.data_append, quoteMark]
      simp only [errNotGuard]
      rw [hdata, headNeGuard (show ('F' == Char.ofNat 39) = false by decide)]
      rfl

theorem errNotGuard_parseLegacy {pt : String} {e : PyErr}
    (h : parseLegacyRouteType pt = .error e) : errNotGuard e = true := by
  unfold parseLegacyRouteType at h
  by_cases h1 : pt = "street-info"
  · rw [if_pos h1] at h; exact Except.noConfusion h
  · rw [if_neg h1] at h
    by_cases h2 : pt = "land-use"
    · rw [if_pos h2] at h; exact Except.noConfusion h
    · rw [if_neg h2] at h
      by_cases h3 : pt = "collaborative-street-works"
      · rw [if_pos h3] at h; exact Except.noConfusion h
      · rw [if_neg h3] at h
        cases Except.error.inj h
        have hdata : (quoteMark ++ pt ++ quoteMark ++ " is not a valid RouteType").data =
            Char.ofNat 39 :: (pt.data ++ quoteMark.data ++ " is not a valid RouteType".data) := by
          simp [String.data_append, quoteMark]
        simp only [errNotGuard]
        rw [hdata, headNeGuard (show ('F' == Char.ofNat 39) = false by decide)]
        rfl

theorem errNotGuard_pyGt {a b : Json} {e : PyErr} (h : pyGt a b = .error e) :
    errNotGuard e = true := by
  cases a <;> cases b <;>
    first
      | exact Except.noConfusion h
      | (cases Except.error.inj h; rfl)

theorem errNotGuard_iterElems {v : Json} {e : PyErr} (h : iterElems v = .error e) :
    errNotGuard e = true := by
  cases v <;>
    first
      | exact Except.noConfusion h
      | (cases Except.error.inj h; rfl)

theorem errNotGuard_updateTimestamp {o : Obj} {acc : Option Json} {e : PyErr}
    (h : updateTimestamp o acc = .error e) : errNotGuard e = true := by
  cases hk : getKey o "timeStamp" with
  | none =>
    simp only [updateTimestamp, hk] at h
    exact Except.noConfusion h
  | some v =>
    by_cases ht : pyTruthy v = true
    · cases acc with
      | none =>
        simp only [updateTimestamp, hk, ht, if_true] at h
        exact Except.noConfusion h
      | some cc =>
        cases hg : pyGt v cc with
        | error e2 =>
          simp only [updateTimestamp, hk, ht, if_true, hg] at h
          cases Except.error.inj h
          exact errNotGuard_pyGt hg
        | ok g =>
          simp only [updateTimestamp, hk, ht, if_true, hg] at h
          exact Except.noConfusion h
    · simp only [updateTimestamp, hk, ht, if_false] at h
      exact Except.noConfusion h

theorem errNotGuard_extract {o : Obj} {e : PyErr}
    (h : extractRoadlinkIds o = .error e) : errNotGuard e = true := by
  unfold extractRoadlinkIds at h
  cases hk : getKey o "properties" with
  | none => rw [hk] at h; exact Except.noConfusion h
  | some v =>
    cases v with
    | obj props =>
      cases hr : getKey props "roadlinkreference" with
      | none => simp only [hk, hr] at h; exact Except.noConfusion h
      | some w =>
        cases he : iterElems w with
        | error e2 =>
          simp only [hk, hr, he] at h
          cases Except.error.inj h
          exact errNotGuard_iterElems he
        | ok refs => simp only [hk, hr, he] at h; exact Except.noConfusion h
    | null => simp only [hk] at h; cases Except.error.inj h; rfl
    | bool b => simp only [hk] at h; cases Except.error.inj h; rfl
    | num n => simp only [hk] at h; cases Except.error.inj h; rfl
    | str s => simp only [hk] at h; cases Except.error.inj h; rfl
    | arr l => simp only [hk] at h; cases Except.error.inj h; rfl

theorem errNotGuard_processFeature {rt : RouteType} {cid : String} {f : Json}
    {e : PyErr} (h : processFeature rt cid f = .error e) : errNotGuard e = true := by
  cases f with
  | obj o =>
    rw [processFeature_obj] at h
    by_cases hc : rt = RouteType.streetInfo ∧ cid = streetCollectionId
    · rw [if_pos hc] at h
      cases hx : extractRoadlinkIds o with
      | error e2 =>
        rw [hx] at h
        cases Except.error.inj h
        exact errNotGuard_extract hx
      | ok ids => rw [hx] at h; exact Except.noConfusion h
    · rw [if_neg hc] at h; exact Except.noConfusion h
  | null => cases Except.error.inj h; rfl
  | bool b => cases Except.error.inj h; rfl
  | num n => cases Except.error.inj h; rfl
  | str s => cases Except.error.inj h; rfl
  | arr l => cases Except.error.inj h; rfl

theorem errNotGuard_processFeaturesList {rt : RouteType} {cid : String} :
    ∀ {l : List Json} {e : PyErr},
      processFeaturesList rt cid l = .error e → errNotGuard e = true := by
  intro l
  induction l with
  | nil => intro e h; exact Except.noConfusion h
  | cons x rest ih =>
    intro e h
    cases hx : processFeature rt cid x with
    | error e2 =>
      simp only [processFeaturesList, hx] at h
      cases Except.error.inj h
      exact errNotGuard_processFeature hx
    | ok pr =>
      obtain ⟨fc, ids1⟩ := pr
      cases hr : processFeaturesList rt cid rest with
      | error e2 =>
        simp only [processFeaturesList, hx, hr] at h
        cases Except.error.inj h
        exact ih hr
      | ok pr2 =>
        obtain ⟨fs2, ids2⟩ := pr2
        simp only [processFeaturesList, hx, hr] at h
        exact Except.noConfusion h

theorem errNotGuard_stepCollection {rt : RouteType} {cid : String} {r : FetchResult}
    {st : AggState} {e : PyErr} (h : stepCollection rt cid r st = .error e) :
    errNotGuard e = true := by
  cases r with
  | exn m => exact Except.noConfusion h
  | val v =>
    cases v with
    | obj o =>
      cases hk : getKey o "features" with
      | none =>
        simp only [stepCollection, hk] at h
        exact Except.noConfusion h
      | some fv =>
        cases he : iterElems fv with
        | error e2 =>
          simp only [stepCollection, hk, he] at h
          cases Except.error.inj h
          exact errNotGuard_iterElems he
        | ok elems =>
          cases hp : processFeaturesList rt cid elems with
          | error e2 =>
            simp only [stepCollection, hk, he, hp] at h
            cases Except.error.inj h
            exact errNotGuard_processFeaturesList hp
          | ok pr =>
            obtain ⟨fs, ids⟩ := pr
            cases ht : updateTimestamp o st.ts with
            | error e2 =>
              simp only [stepCollection, hk, he, hp, ht] at h
              cases Except.error.inj h
              exact errNotGuard_updateTimestamp ht
            | ok ts2 =>
              simp only [stepCollection, hk, he, hp, ht] at h
              exact Except.noConfusion h
    | null => exact Except.noConfusion h
    | bool b => exact Except.noConfusion h
    | num n => exact Except.noConfusion h
    | str s => exact Except.noConfusion h
    | arr l => exact Except.noConfusion h

theorem errNotGuard_foldCollections {rt : RouteType} :
    ∀ {pairs : List (String × FetchResult)} {st : AggState} {e : PyErr},
      foldCollections rt pairs st = .error e → errNotGuard e = true := by
  intro pairs
  induction pairs with
  | nil => intro st e h; exact Except.noConfusion h
  | cons p rest ih =>
    intro st e h
    obtain ⟨cid, r⟩ := p
    cases hs : stepCollection rt cid r st with
    | error e2 =>
      simp only [foldCollections, hs] at h
      cases Except.error.inj h
      exact errNotGuard_stepCollection hs
    | ok st2 =>
      simp only [foldCollections, hs] at h
      exact ih h

theorem errNotGuard_roadStep {r : FetchResult} {st : List Obj × Option Json}
    {e : PyErr} (h : roadStep r st = .error e) : errNotGuard e = true := by
  cases r with
  | exn m => exact Except.noConfusion h
  | val v =>
    cases v with
    | obj o =>
      by_cases hp : hasKey o "properties" = true
      · cases ht : updateTimestamp o st.2 with
        | error e2 =>
          simp only [roadStep, hp, if_true, ht] at h
          cases Except.error.inj h
          exact errNotGuard_updateTimestamp ht
        | ok ts2 =>
          simp only [roadStep, hp, if_true, ht] at h
          exact Except.noConfusion h
      · simp only [roadStep, hp, if_false] at h
        exact Except.noConfusion h
    | null => exact Except.noConfusion h
    | bool b => exact Except.noConfusion h
    | num n => exact Except.noConfusion h
    | str s => exact Except.noConfusion h
    | arr l => exact Except.noConfusion h

theorem errNotGuard_roadFold :
    ∀ {rs : List FetchResult} {st : List Obj × Option Json} {e : PyErr},
      roadFold rs st = .error e → errNotGuard e = true := by
  intro rs
  induction rs with
  | nil => intro st e h; exact Except.noConfusion h
  | cons r rest ih =>
    intro st e h
    cases hs : roadStep r st with
    | error e2 =>
      simp only [roadFold, hs] at h
      cases Except.error.inj h
      exact errNotGuard_roadStep hs
    | ok st2 =>
      simp only [roadFold, hs] at h
      exact ih h

theorem errNotGuard_aggregatePhases {rt : RouteType} {prims : List FetchResult}
    {rf : List Json → List FetchResult} {e : PyErr}
    (h : aggregatePhases rt prims rf = .error e) : errNotGuard e = true := by
  cases hfold : foldCollections rt ((queryCollections rt).zip prims) ⟨[], none, []⟩ with
  | error e2 =>
    simp only [aggregatePhases, hfold] at h
    cases Except.error.inj h
    exact errNotGuard_foldCollections hfold
  | ok st =>
    cases rt with
    | landUse =>
      simp only [aggregatePhases, hfold] at h
      exact Except.noConfusion h
    | streetInfo =>
      cases hr : st.rids with
      | nil =>
        simp only [aggregatePhases, hfold, hr] at h
        exact Except.noConfusion h
      | cons i tl =>
        cases hroad : roadFold (rf (i :: tl)) (st.feats, st.ts) with
        | error e2 =>
          simp only [aggregatePhases, hfold, hr, hroad] at h
          cases Except.error.inj h
          exact errNotGuard_roadFold hroad
        | ok p =>
          simp only [aggregatePhases, hfold, hr, hroad] at h
          exact Except.noConfusion h

theorem errNotGuard_mkPrimResults {oracle : Oracle} {rt : RouteType} {u : String}
    {b bc c : Option String} {e : PyErr}
    (h : mkPrimResults oracle rt u b bc c = .error e) : errNotGuard e = true := by
  cases rt with
  | streetInfo => exact Except.noConfusion h
  | landUse =>
    by_cases hb : falsyOptStr b = true
    · simp only [mkPrimResults, hb, if_true] at h
      cases Except.error.inj h
      rfl
    · simp only [mkPrimResults, hb, if_false] at h
      exact Except.noConfusion h

theorem errNotGuard_process {oracle : Oracle} {pt u : String} {b bc c : Option String}
    {e : PyErr} (h : process_single_collection oracle pt u b bc c = .error e) :
    errNotGuard e = true := by
  by_cases hu : u = ""
  · simp only [process_single_collection, hu, if_true] at h
    cases Except.error.inj h
    rfl
  · cases hpt : parseRouteType pt with
    | error e2 =>
      simp only [process_single_collection, hu, if_false, hpt] at h
      cases Except.error.inj h
      exact errNotGuard_parse hpt
    | ok rt =>
      cases hm : mkPrimResults oracle rt u b bc c with
      | error e2 =>
        simp only [process_single_collection, hu, if_false, hpt, hm] at h
        cases Except.error.inj h
        exact errNotGuard_mkPrimResults hm
      | ok prims =>
        simp only [process_single_collection, hu, if_false, hpt, hm] at h
        exact errNotGuard_aggregatePhases h

theorem stripFeature_obj (cid : String) (o : Obj) :
    stripFeature cid (Json.obj o) = .ok (delKey o "geometry") := by
  simp [stripFeature, hasKey_delKey]

theorem errNotGuard_stripFeature {cid : String} {f : Json} {e : PyErr}
    (h : stripFeature cid f = .error e) : errNotGuard e = true := by
  cases f with
  | obj o => rw [stripFeature_obj] at h; exact Except.noConfusion h
  | null => cases Except.error.inj h; rfl
  | bool b => cases Except.error.inj h; rfl
  | num n => cases Except.error.inj h; rfl
  | str s => cases Except.error.inj h; rfl
  | arr l => cases Except.error.inj h; rfl

theorem errNotGuard_stripFeaturesList {cid : String} :
    ∀ {l : List Json} {e : PyErr},
      stripFeaturesList cid l = .error e → errNotGuard e = true := by
  intro l
  induction l with
  | nil => intro e h; exact Except.noConfusion h
  | cons x rest ih =>
    intro e h
    cases hx : stripFeature cid x with
    | error e2 =>
      simp only [stripFeaturesList, hx] at h
      cases Except.error.inj h
      exact errNotGuard_stripFeature hx
    | ok fc =>
      cases hr : stripFeaturesList cid rest with
      | error e2 =>
        simp only [stripFeaturesList, hx, hr] at h
        cases Except.error.inj h
        exact ih hr
      | ok fs =>
        simp only [stripFeaturesList, hx, hr] at h
        exact Except.noConfusion h

theorem errNotGuard_legacyStep {cid : String} {r : FetchResult}
    {st : List Obj × Option Json} {e : PyErr} (h : legacyStep cid r st = .error e) :
    errNotGuard e = true := by
  cases r with
  | exn m => exact Except.noConfusion h
  | val v =>
    cases v with
    | obj o =>
      cases hk : getKey o "features" with
      | none =>
        simp only [legacyStep, hk] at h
        exact Except.noConfusion h
      | some fv =>
        cases he : iterElems fv with
        | error e2 =>
          simp only [legacyStep, hk, he] at h
          cases Except.error.inj h
          exact errNotGuard_iterElems he
        | ok elems =>
          cases hp : stripFeaturesList cid elems with
          | error e2 =>
            simp only [legacyStep, hk, he, hp] at h
            cases Except.error.inj h
            exact errNotGuard_stripFeaturesList hp
          | ok fs =>
            cases ht : updateTimestamp o st.2 with
            | error e2 =>
              simp only [legacyStep, hk, he, hp, ht] at h
              cases Except.error.inj h
              exact errNotGuard_updateTimestamp ht
            | ok ts2 =>
              simp only [legacyStep, hk, he, hp, ht] at h
              exact Except.noConfusion h
    | null => exact Except.noConfusion h
    | bool b => exact Except.noConfusion h
    | num n => exact Except.noConfusion h
    | str s => exact Except.noConfusion h
    | arr l => exact Except.noConfusion h

theorem errNotGuard_legacyFold :
    ∀ {pairs : List (String × FetchResult)} {st : List Obj × Option Json} {e : PyErr},
      legacyFold pairs st = .error e → errNotGuard e = true := by
  intro pairs
  induction pairs with
  | nil => intro st e h; exact Except.noConfusion h
  | cons p rest ih =>
    intro st e h
    obtain ⟨cid, r⟩ := p
    cases hs : legacyStep cid r st with
    | error e2 =>
      simp only [legacyFold, hs] at h
      cases Except.error.inj h
      exact errNotGuard_legacyStep hs
    | ok st2 =>
      simp only [legacyFold, hs] at h
      exact ih h

theorem errNotGuard_legacyAggregate {cids : List String} {results : List FetchResult}
    {e : PyErr} (h : legacyAggregate cids results = .error e) : errNotGuard e = true := by
  cases hf : legacyFold (cids.zip results) ([], none) with
  | error e2 =>
    simp only [legacyAggregate, hf] at h
    cases Except.error.inj h
    exact errNotGuard_legacyFold hf
  | ok p =>
    simp only [legacyAggregate, hf] at h
    exact Except.noConfusion h

theorem errNotGuard_legacy {oracle : Oracle} {pt u b bc c : String} {e : PyErr}
    (h : legacy_process_single_collection oracle pt u b bc c = .error e) :
    errNotGuard e = true := by
  by_cases hu : u = ""
  · simp only [legacy_process_single_collection, hu, if_true] at h
    cases Except.error.inj h
    rfl
  · cases hpt : parseLegacyRouteType pt with
    | error e2 =>
      simp only [legacy_process_single_collection, hu, if_false, hpt] at h
      cases Except.error.inj h
      exact errNotGuard_parseLegacy hpt
    | ok rt =>
      cases rt with
      | streetInfo =>
        simp only [legacy_process_single_collection, hu, if_false, hpt] at h
        exact errNotGuard_legacyAggregate h
      | landUse =>
        by_cases hb : b = ""
        · simp only [legacy_process_single_collection, hu, if_false, hpt, hb, if_true] at h
          cases Except.error.inj h
          rfl
        · simp only [legacy_process_single_collection, hu, if_false, hpt, hb, if_false] at h
          exact errNotGuard_legacyAggregate h
      | collaborativeStreetWorks =>
        simp only [legacy_process_single_collection, hu, if_false, hpt] at h
        cases Except.error.inj h
        have hdata : ("Unsupported path type: " ++ pt).data =
            'U' :: ("nsupported path type: ".data ++ pt.data) := by
          rw [String.data_append]
          rfl
        simp only [errNotGuard]
        rw [hdata, headNeGuard (show ('F' == 'U') = false by decide)]
        rfl

/-- C9: neither aggregator variant can return the internal
`Failed to remove geometry from feature in ...` ValueError: after the
`geometry` key is deleted from the copied feature the membership re-check
is always false, so that branch is dead code. -/
theorem C9_dead_guard :
    ∀ (oracle : Oracle) (pt u : String) (b bc c : Option String)
      (lu lb lbc lc : String),
      isGeomGuardErr (process_single_collection oracle pt u b bc c) = false ∧
      isGeomGuardErr (legacy_process_single_collection oracle pt lu lb lbc lc) = false := by
  intro oracle pt u b bc c lu lb lbc lc
  constructor
  · cases hp : process_single_collection oracle pt u b bc c with
    | error e => exact isGeomGuardErr_of_errNotGuard (errNotGuard_process hp)
    | ok out => rfl
  · cases hp : legacy_process_single_collection oracle pt lu lb lbc lc with
    | error e => exact isGeomGuardErr_of_errNotGuard (errNotGuard_legacy hp)
    | ok out => rfl

/-!
BBox rounding claim.
-/

theorem ratFloor_eq (q : ℚ) : Rat.floor q = ⌊q⌋ := by
  rw [Rat.floor_def', Rat.floor_def]

/-- Python `round` returns an integer within one half of its argument. -/
theorem pyRound_abs (q : ℚ) : |(pyRound q : ℚ) - q| ≤ 1/2 := by
  have h1 : ((⌊q⌋ : ℤ) : ℚ) ≤ q := Int.floor_le q
  have h2 : q < (⌊q⌋ : ℤ) + 1 := Int.lt_floor_add_one q
  unfold pyRound
  rw [ratFloor_eq]
  split_ifs with hA hB hC
  · rw [abs_le]
    constructor <;> linarith
  · rw [abs_le]
    constructor <;> push_cast <;> linarith
  · rw [abs_le]
    constructor <;> linarith
  · rw [abs_le]
    constructor <;> push_cast at hA hB ⊢ <;> linarith

/-- C8: for every USRN with a stored geometry row (and a configured
store), `get_bbox_from_usrn` returns exactly the four bounds of the
buffered geometry rounded with Python round (nearest integer, ties to
even, never truncation), so each returned integer is within 0.5 of the
corresponding exact bound. -/
theorem C8_bbox_rounding :
    ∀ {G : Type} (bufferBounds : G → ℚ → ℚ × ℚ × ℚ × ℚ)
      (store : String → Option G) (schema tableName : Option String)
      (usrn : String) (d : ℚ) (g : G),
      falsyOptStr schema = false → falsyOptStr tableName = false →
      store usrn = some g →
      get_bbox_from_usrn bufferBounds store schema tableName usrn d =
        .ok (pyRound (bufferBounds g d).1, pyRound (bufferBounds g d).2.1,
             pyRound (bufferBounds g d).2.2.1, pyRound (bufferBounds g d).2.2.2) ∧
      |(pyRound (bufferBounds g d).1 : ℚ) - (bufferBounds g d).1| ≤ 1/2 ∧
      |(pyRound (bufferBounds g d).2.1 : ℚ) - (bufferBounds g d).2.1| ≤ 1/2 ∧
      |(pyRound (bufferBounds g d).2.2.1 : ℚ) - (bufferBounds g d).2.2.1| ≤ 1/2 ∧
      |(pyRound (bufferBounds g d).2.2.2 : ℚ) - (bufferBounds g d).2.2.2| ≤ 1/2 := by
  intro G bb store sch tbl usrn d g hs ht hg
  refine ⟨?_, pyRound_abs _, pyRound_abs _, pyRound_abs _, pyRound_abs _⟩
  simp only [get_bbox_from_usrn, hs, ht, hg, Bool.or_self, Bool.false_eq_true, if_false]

/-- A concrete one-geometry store for the C8 witness. -/
def cx8Bounds : Unit → ℚ → ℚ × ℚ × ℚ × ℚ := fun _ _ => (7/2, 1, 5, 2)

/-- A concrete store lookup for the C8 witness. -/
def cx8Store : String → Option Unit := fun _ => some ()

/-- Witness for C8 at a concrete geometry. -/
theorem C8_bbox_rounding_witness :
    get_bbox_from_usrn cx8Bounds cx8Store (some "sch") (some "tbl") "100" 50 =
      .ok (pyRound (cx8Bounds () 50).1, pyRound (cx8Bounds () 50).2.1,
           pyRound (cx8Bounds () 50).2.2.1, pyRound (cx8Bounds () 50).2.2.2) ∧
    |(pyRound (cx8Bounds () 50).1 : ℚ) - (cx8Bounds () 50).1| ≤ 1/2 ∧
    |(pyRound (cx8Bounds () 50).2.1 : ℚ) - (cx8Bounds () 50).2.1| ≤ 1/2 ∧
    |(pyRound (cx8Bounds () 50).2.2.1 : ℚ) - (cx8Bounds () 50).2.2.1| ≤ 1/2 ∧
    |(pyRound (cx8Bounds () 50).2.2.2 : ℚ) - (cx8Bounds () 50).2.2.2| ≤ 1/2 :=
  C8_bbox_rounding cx8Bounds cx8Store (some "sch") (some "tbl") "100" 50 () rfl rfl rfl

/-!
Completion-order independence of gather, and determinism of the
aggregator.
-/

theorem lookup_completeEvents {rs : List FetchResult} :
    ∀ {sched : List Nat} {i : Nat}, i ∈ sched → sched.Nodup →
      (∀ j ∈ sched, j < rs.length) →
      (completeEvents rs sched).lookup i = rs.get? i := by
  intro sched
  induction sched with
  | nil => intro i hi _ _; cases hi
  | cons j tl ih =>
    intro i hi hnd hall
    have hj : j < rs.length := hall j (List.mem_cons_self j tl)
    obtain ⟨r, hr⟩ : ∃ r, rs.get? j = some r := ⟨rs.get ⟨j, hj⟩, List.get?_eq_get hj⟩
    have hce : completeEvents rs (j :: tl) = (j, r) :: completeEvents rs tl := by
      unfold completeEvents
      rw [List.filterMap_cons, hr]
      rfl
    rw [hce]
    by_cases hij : i = j
    · subst hij
      simp only [List.lookup, beq_self_eq_true]
      exact hr.symm
    · have hne : (i == j) = false := by simpa using hij
      simp only [List.lookup, hne]
      have hitl : i ∈ tl := by
        rcases List.mem_cons.mp hi with h | h
        · exact absurd h hij
        · exact h
      exact ih hitl (List.nodup_cons.mp hnd).2
        (fun x hx => hall x (List.mem_cons_of_mem j hx))

theorem filterMap_get?_range {α : Type} (rs : List α) :
    (List.range rs.length).filterMap (fun i => rs.get? i) = rs := by
  induction rs with
  | nil => rfl
  | cons a tl ih =>
    rw [List.length_cons, List.range_succ_eq_map]
    simp only [List.filterMap_cons, List.get?, List.filterMap_map]
    rw [show ((fun i => (a :: tl).get? i) ∘ Nat.succ) = (fun i => tl.get? i) from
      funext (fun i => rfl), ih]

/-- Gather reassembles the results in submission order under every
completion schedule that is a permutation of the task indices. -/
theorem gatherSched_perm {rs : List FetchResult} {sched : List Nat}
    (h : sched.Perm (List.range rs.length)) : gatherSched rs sched = rs := by
  have hnd : sched.Nodup := h.nodup_iff.mpr (List.nodup_range _)
  have hall : ∀ j ∈ sched, j < rs.length := fun j hj => List.mem_range.mp (h.subset hj)
  have hmem : ∀ i, i < rs.length → i ∈ sched :=
    fun i hi => h.mem_iff.mpr (List.mem_range.mpr hi)
  unfold gatherSched
  rw [List.filterMap_congr (fun i hi =>
    lookup_completeEvents (hmem i (List.mem_range.mp hi)) hnd hall)]
  exact filterMap_get?_range rs

theorem mkPrimResults_length {oracle : Oracle} {rt : RouteType} {u : String}
    {b bc c : Option String} {prims : List FetchResult}
    (h : mkPrimResults oracle rt u b bc c = .ok prims) :
    prims.length = (queryCollections rt).length := by
  cases rt with
  | streetInfo =>
    cases Except.ok.inj h
    simp
  | landUse =>
    by_cases hb : falsyOptStr b = true
    · simp only [mkPrimResults, hb, if_true] at h
      exact Except.noConfusion h
    · simp only [mkPrimResults, hb, if_false] at h
      cases Except.ok.inj h
      simp

theorem aggregatePhases_congr_road {rt : RouteType} {prims : List FetchResult}
    {rf1 rf2 : List Json → List FetchResult}
    (h : ∀ st, foldCollections rt ((queryCollections rt).zip prims) ⟨[], none, []⟩ = .ok st →
      rf1 st.rids = rf2 st.rids) :
    aggregatePhases rt prims rf1 = aggregatePhases rt prims rf2 := by
  cases hfold : foldCollections rt ((queryCollections rt).zip prims) ⟨[], none, []⟩ with
  | error e => simp only [aggregatePhases, hfold]
  | ok st =>
    cases rt with
    | landUse => simp only [aggregatePhases, hfold]
    | streetInfo =>
      cases hr : st.rids with
      | nil => simp only [aggregatePhases, hfold, hr]
      | cons i tl =>
        have hre := h st hfold
        rw [hr] at hre
        simp only [aggregatePhases, hfold, hr, hre]

/-- A scheduled run with valid completion schedules computes exactly the
canonical (submission-ordered) result. -/
theorem process_sched_eq {oracle : Oracle} {pt u : String} {b bc c : Option String}
    {sched rsched : List Nat}
    (hs : ∀ rt, parseRouteType pt = .ok rt →
      sched.Perm (List.range (queryCollections rt).length))
    (hr : rsched.Perm (List.range (canonicalRids oracle pt u b bc c).length)) :
    process_single_collection_sched oracle pt u b bc c sched rsched =
      process_single_collection oracle pt u b bc c := by
  by_cases hu : u = ""
  · simp only [process_single_collection_sched, process_single_collection, hu, if_true]
  · cases hpt : parseRouteType pt with
    | error e =>
      simp only [process_single_collection_sched, process_single_collection, hu,
        if_false, hpt]
    | ok rt =>
      cases hm : mkPrimResults oracle rt u b bc c with
      | error e =>
        simp only [process_single_collection_sched, process_single_collection, hu,
          if_false, hpt, hm]
      | ok prims =>
        simp only [process_single_collection_sched, process_single_collection, hu,
          if_false, hpt, hm]
        have hlen : prims.length = (queryCollections rt).length := mkPrimResults_length hm
        have hgs : gatherSched prims sched = prims :=
          gatherSched_perm (by rw [hlen]; exact hs rt hpt)
        rw [hgs]
        apply aggregatePhases_congr_road
        intro st hfold
        have hcr : canonicalRids oracle pt u b bc c = st.rids := by
          simp only [canonicalRids, hu, if_false, hpt, hm, hfold]
        rw [hcr] at hr
        exact gatherSched_perm (by rw [List.length_map]; exact hr)

/-- C6: the aggregation output is deterministic.  Two runs on identical
per-collection fetch results agree, and the result is independent of the
completion order of both concurrent gathers: any run whose schedules are
permutations of the respective task index sets equals the canonical run
in configured query-set order. -/
theorem C6_determinism :
    ∀ (oracle : Oracle) (pt u : String) (b bc c : Option String)
      (s1 r1 s2 r2 : List Nat),
      (∀ rt, parseRouteType pt = .ok rt →
        s1.Perm (List.range (queryCollections rt).length)) →
      r1.Perm (List.range (canonicalRids oracle pt u b bc c).length) →
      (∀ rt, parseRouteType pt = .ok rt →
        s2.Perm (List.range (queryCollections rt).length)) →
      r2.Perm (List.range (canonicalRids oracle pt u b bc c).length) →
      process_single_collection_sched oracle pt u b bc c s1 r1 =
        process_single_collection oracle pt u b bc c ∧
      process_single_collection_sched oracle pt u b bc c s2 r2 =
        process_single_collection_sched oracle pt u b bc c s1 r1 := by
  intro oracle pt u b bc c s1 r1 s2 r2 hs1 hr1 hs2 hr2
  have e1 := process_sched_eq hs1 hr1
  have e2 := process_sched_eq hs2 hr2
  exact ⟨e1, e2.trans e1.symm⟩

/-- Witness for C6 at a concrete input: two different completion orders of
the four STREET_INFO fetches produce the canonical output. -/
theorem C6_determinism_witness :
    process_single_collection_sched emptyOracle "street-info" "100" none none none
      [2, 0, 3, 1] [] =
      process_single_collection emptyOracle "street-info" "100" none none none ∧
    process_single_collection_sched emptyOracle "street-info" "100" none none none
      [1, 3, 0, 2] [] =
      process_single_collection_sched emptyOracle "street-info" "100" none none none
        [2, 0, 3, 1] [] :=
  C6_determinism emptyOracle "street-info" "100" none none none [2, 0, 3, 1] []
    [1, 3, 0, 2] []
    (fun rt h => by cases h; decide)
    (by decide)
    (fun rt h => by cases h; decide)
    (by decide)

/-!
Success-mode step lemmas: exact behaviour of one reduction step on a
well-formed collection result, and success of the timestamp update when
every observed timestamp is a string.
-/

/-- The running timestamp is absent or a string. -/
def StrOpt (a : Option Json) : Prop := a = none ∨ ∃ s, a = some (Json.str s)

/-- Every truthy `timeStamp` value of this dict is a string. -/
def StrTS (o : Obj) : Prop :=
  ∀ v, getKey o "timeStamp" = some v → pyTruthy v = true → ∃ s, v = Json.str s

theorem updateTimestamp_str {o : Obj} {acc : Option Json} (ho : StrTS o)
    (ha : StrOpt acc) : ∃ a2, updateTimestamp o acc = .ok a2 ∧ StrOpt a2 := by
  cases hk : getKey o "timeStamp" with
  | none => exact ⟨acc, by simp [updateTimestamp, hk], ha⟩
  | some v =>
    by_cases ht : pyTruthy v = true
    · obtain ⟨s, rfl⟩ := ho v hk ht
      rcases ha with rfl | ⟨cs, rfl⟩
      · exact ⟨some (Json.str s), by simp [updateTimestamp, hk, ht], Or.inr ⟨s, rfl⟩⟩
      · refine ⟨if cs < s then some (Json.str s) else some (Json.str cs), ?_, ?_⟩
        · simp only [updateTimestamp, hk, ht, if_true, pyGt, pyStrLt_eq_decide]
          by_cases hlt : cs < s
          · simp [hlt]
          · simp [hlt]
        · by_cases hlt : cs < s
          · rw [if_pos hlt]; exact Or.inr ⟨s, rfl⟩
          · rw [if_neg hlt]; exact Or.inr ⟨cs, rfl⟩
    · exact ⟨acc, by simp [updateTimestamp, hk, ht], ha⟩

theorem getKey_delKey_ne (o : Obj) {k k2 : String} (h : k ≠ k2) :
    getKey (delKey o k2) k = getKey o k := by
  induction o with
  | nil => rfl
  | cons p o ih =>
    rcases p with ⟨k1, v1⟩
    by_cases h1 : k1 = k2
    · subst h1
      have hne : (k == k1) = false := by simpa using h
      simp only [delKey, List.filter_cons, bne_self_eq_false, if_false]
      rw [show getKey ((k1, v1) :: o) k = getKey o k by
        simp only [getKey, List.lookup, hne]]
      exact ih
    · have hk1 : ((k1, v1).1 != k2) = true := by simpa using h1
      simp only [delKey, List.filter_cons, hk1, if_true]
      simp only [getKey, List.lookup]
      cases hkk : (k == k1) with
      | true => rfl
      | false => exact ih

theorem stepCollection_exn (rt : RouteType) (cid m : String) (st : AggState) :
    stepCollection rt cid (.exn m) st = .ok st := rfl

theorem stepCollection_ok_processed {rt : RouteType} {cid : String} {o : Obj}
    {elems : List Json} {fs : List Obj} {ids : List Json} {acc a2 : Option Json}
    (hk : getKey o "features" = some (Json.arr elems))
    (hp : processFeaturesList rt cid elems = .ok (fs, ids))
    (ht : updateTimestamp o acc = .ok a2) (F : List Obj) (I : List Json) :
    stepCollection rt cid (.val (Json.obj o)) ⟨F, acc, I⟩ = .ok ⟨F ++ fs, a2, I ++ ids⟩ := by
  simp only [stepCollection, hk, iterElems, hp, ht]

theorem roadStep_ok_processed {o : Obj} {acc a2 : Option Json}
    (hq : hasKey o "properties" = true) (ht : updateTimestamp o acc = .ok a2)
    (F : List Obj) :
    roadStep (.val (Json.obj o)) (F, acc) = .ok (F ++ [delKey o "geometry"], a2) := by
  have hq2 : hasKey (delKey o "geometry") "properties" = true := by
    rw [hasKey, getKey_delKey_ne o (by decide)]
    exact hq
  simp only [roadStep, hq, if_true, ht, hq2]

theorem processFeaturesList_length {rt : RouteType} {cid : String} :
    ∀ {l : List Json} {fs : List Obj} {ids : List Json},
      processFeaturesList rt cid l = .ok (fs, ids) → fs.length = l.length := by
  intro l
  induction l with
  | nil =>
    intro fs ids h
    cases Except.ok.inj h
    rfl
  | cons x rest ih =>
    intro fs ids h
    cases hx : processFeature rt cid x with
    | error e => simp only [processFeaturesList, hx] at h; exact Except.noConfusion h
    | ok pr =>
      obtain ⟨fc, ids1⟩ := pr
      cases hr : processFeaturesList rt cid rest with
      | error e =>
        simp only [processFeaturesList, hx, hr] at h
        exact Except.noConfusion h
      | ok pr2 =>
        obtain ⟨fs2, ids2⟩ := pr2
        simp only [processFeaturesList, hx, hr, Except.ok.injEq, Prod.mk.injEq] at h
        obtain ⟨h1, h2⟩ := h
        subst h1
        simp [ih hr]

/-!
Partial-failure tolerance (C1).
-/

/-- Outcome of one primary collection in the partial-failure scenario:
either the fetch failed, or it returned a well-formed FeatureCollection
whose features process cleanly, yield no roadlink references, and whose
timestamp (if truthy) is a string. -/
def CollOutcome (rt : RouteType) (cid : String) (r : FetchResult) (fs : List Obj) : Prop :=
  (∃ m, r = .exn m ∧ fs = []) ∨
  (∃ o elems, r = .val (Json.obj o) ∧ getKey o "features" = some (Json.arr elems) ∧
    processFeaturesList rt cid elems = .ok (fs, []) ∧ StrTS o)

/-- Number of failed fetches among gather results. -/
def countExn (l : List FetchResult) : Nat :=
  l.countP (fun r => match r with | .exn _ => true | _ => false)

/-- C1 (amended): in a STREET_INFO aggregation where exactly one of the
four primary fetches fails and the other three succeed with well-formed
results whose features carry no roadlink references, the call does not
raise and returns exactly the features of the successful collections, in
configured collection order (the failed collection is skipped). -/
theorem C1_partial_failure (oracle : Oracle) (u : String) (b bc c : Option String)
    (R1 R2 R3 R4 : FetchResult) (fs1 fs2 fs3 fs4 : List Obj)
    (hu : u ≠ "")
    (hR1 : oracle.byAttr "trn-ntwk-street-1" "usrn" u = R1)
    (hR2 : oracle.byAttr "trn-rami-specialdesignationarea-1" "usrn" u = R2)
    (hR3 : oracle.byAttr "trn-rami-specialdesignationline-1" "usrn" u = R3)
    (hR4 : oracle.byAttr "trn-rami-specialdesignationpoint-1" "usrn" u = R4)
    (h1 : CollOutcome RouteType.streetInfo "trn-ntwk-street-1" R1 fs1)
    (h2 : CollOutcome RouteType.streetInfo "trn-rami-specialdesignationarea-1" R2 fs2)
    (h3 : CollOutcome RouteType.streetInfo "trn-rami-specialdesignationline-1" R3 fs3)
    (h4 : CollOutcome RouteType.streetInfo "trn-rami-specialdesignationpoint-1" R4 fs4)
    (hone : countExn [R1, R2, R3, R4] = 1) :
    ∃ ts, process_single_collection oracle "street-info" u b bc c =
      .ok (mkOutput (fs1 ++ fs2 ++ fs3 ++ fs4) ts) := by
  have step : ∀ (rt : RouteType) (cid : String) (r : FetchResult) (fs F : List Obj)
      (acc : Option Json) (I : List Json), CollOutcome rt cid r fs → StrOpt acc →
      ∃ a2, stepCollection rt cid r ⟨F, acc, I⟩ = .ok ⟨F ++ fs, a2, I⟩ ∧ StrOpt a2 := by
    intro rt cid r fs F acc I hco ha
    rcases hco with ⟨m, rfl, rfl⟩ | ⟨o, elems, rfl, hk, hp, hts⟩
    · exact ⟨acc, by simp [stepCollection_exn], ha⟩
    · obtain ⟨a2, ht, ha2⟩ := updateTimestamp_str hts ha
      refine ⟨a2, ?_, ha2⟩
      rw [stepCollection_ok_processed hk hp ht F I]
      simp
  obtain ⟨a1, hstep1, hstr1⟩ :=
    step RouteType.streetInfo "trn-ntwk-street-1" R1 fs1 [] none [] h1 (Or.inl rfl)
  obtain ⟨a2, hstep2, hstr2⟩ :=
    step RouteType.streetInfo "trn-rami-specialdesignationarea-1" R2 fs2
      ([] ++ fs1) a1 [] h2 hstr1
  obtain ⟨a3, hstep3, hstr3⟩ :=
    step RouteType.streetInfo "trn-rami-specialdesignationline-1" R3 fs3
      ([] ++ fs1 ++ fs2) a2 [] h3 hstr2
  obtain ⟨a4, hstep4, hstr4⟩ :=
    step RouteType.streetInfo "trn-rami-specialdesignationpoint-1" R4 fs4
      ([] ++ fs1 ++ fs2 ++ fs3) a3 [] h4 hstr3
  have hm : mkPrimResults oracle RouteType.streetInfo u b bc c = .ok [R1, R2, R3, R4] := by
    simp only [mkPrimResults, queryCollections, List.map_cons, List.map_nil,
      hR1, hR2, hR3, hR4]
  have hfold : foldCollections RouteType.streetInfo
      ((queryCollections RouteType.streetInfo).zip [R1, R2, R3, R4]) ⟨[], none, []⟩ =
      .ok ⟨[] ++ fs1 ++ fs2 ++ fs3 ++ fs4, a4, []⟩ := by
    show foldCollections RouteType.streetInfo
      [("trn-ntwk-street-1", R1), ("trn-rami-specialdesignationarea-1", R2),
       ("trn-rami-specialdesignationline-1", R3),
       ("trn-rami-specialdesignationpoint-1", R4)] ⟨[], none, []⟩ = _
    simp only [foldCollections, hstep1, hstep2, hstep3, hstep4]
  refine ⟨a4, ?_⟩
  simp only [process_single_collection, hu, if_false, parseRouteType, if_true,
    reduceIte, hm, aggregatePhases, hfold]
  simp

/-- Street feature with a roadlink reference, for the C1 counterexample. -/
def cx1StreetFeature : Obj :=
  [("id", Json.num 1),
   ("geometry", Json.null),
   ("properties", Json.obj [("roadlinkreference",
     Json.arr [Json.obj [("roadlinkid", Json.str "RL1")]])])]

/-- Roadlink record returned by the fetch-by-id call in the C1
counterexample. -/
def cx1Roadlink : Obj :=
  [("id", Json.str "RL1"), ("geometry", Json.null),
   ("properties", Json.obj [("roadclassification", Json.str "Local Road")])]

/-- Upstream for the C1 counterexample: the street fetch succeeds with one
referencing feature, the area fetch fails, the other two succeed empty,
and the roadlink fetch succeeds. -/
def cx1Oracle : Oracle :=
  ⟨fun cid _ _ =>
     if cid = "trn-ntwk-street-1" then
       .val (Json.obj [("features", Json.arr [Json.obj cx1StreetFeature])])
     else if cid = "trn-rami-specialdesignationarea-1" then .exn "network error"
     else .val (Json.obj [("features", Json.arr [])]),
   fun _ _ _ _ => .exn "unused",
   fun _ _ => .val (Json.obj cx1Roadlink)⟩

/-- C1 counterexample: exactly one of the four STREET_INFO fetches fails
and the other three succeed well-formed, yet the returned features list is
NOT exactly the three successful collections' features — the roadlink join
appends a fourth-source feature, so the result has 2 features while the
three collections supply only 1. -/
theorem C1_counterexample :
    cx1Oracle.byAttr "trn-rami-specialdesignationarea-1" "usrn" "100" =
      FetchResult.exn "network error" ∧
    countExn [cx1Oracle.byAttr "trn-ntwk-street-1" "usrn" "100",
      cx1Oracle.byAttr "trn-rami-specialdesignationarea-1" "usrn" "100",
      cx1Oracle.byAttr "trn-rami-specialdesignationline-1" "usrn" "100",
      cx1Oracle.byAttr "trn-rami-specialdesignationpoint-1" "usrn" "100"] = 1 ∧
    process_single_collection cx1Oracle "street-info" "100" none none none =
      .ok (mkOutput [delKey cx1StreetFeature "geometry",
        delKey cx1Roadlink "geometry"] none) ∧
    (featureObjsOf (mkOutput [delKey cx1StreetFeature "geometry",
      delKey cx1Roadlink "geometry"] none)).length = 2 ∧
    ([delKey cx1StreetFeature "geometry"] ++ ([] : List Obj) ++ ([] : List Obj)).length = 1 ∧
    (2 : Nat) ≠ 1 :=
  ⟨rfl, rfl, rfl, rfl, rfl, by decide⟩

/-- Street collection result for the C1 witness. -/
def cw1Street : Obj :=
  [("features", Json.arr [Json.obj [("id", Json.num 7), ("geometry", Json.null)]]),
   ("timeStamp", Json.str "2024-01-01T00:00:00Z")]

/-- Empty well-formed collection result for the C1 witness. -/
def cw1Empty : Obj := [("features", Json.arr [])]

/-- Upstream for the C1 witness: the area fetch fails, the rest succeed
with no roadlink references. -/
def cw1Oracle : Oracle :=
  ⟨fun cid _ _ =>
     if cid = "trn-ntwk-street-1" then .val (Json.obj cw1Street)
     else if cid = "trn-rami-specialdesignationarea-1" then .exn "network error"
     else .val (Json.obj cw1Empty),
   fun _ _ _ _ => .exn "unused",
   fun _ _ => .exn "unused"⟩

/-- Witness for the amended C1 at a concrete input. -/
theorem C1_partial_failure_witness :
    ∃ ts, process_single_collection cw1Oracle "street-info" "100" none none none =
      .ok (mkOutput ([[("id", Json.num 7)]] ++ [] ++ [] ++ []) ts) :=
  C1_partial_failure cw1Oracle "100" none none none
    (.val (Json.obj cw1Street)) (.exn "network error")
    (.val (Json.obj cw1Empty)) (.val (Json.obj cw1Empty))
    [[("id", Json.num 7)]] [] [] []
    (by decide) rfl rfl rfl rfl
    (Or.inr ⟨cw1Street, [Json.obj [("id", Json.num 7), ("geometry", Json.null)]],
      rfl, rfl, rfl,
      by intro v hv ht; cases Option.some.inj hv; exact ⟨_, rfl⟩⟩)
    (Or.inl ⟨"network error", rfl, rfl⟩)
    (Or.inr ⟨cw1Empty, [], rfl, rfl, rfl, by intro v hv ht; exact Option.noConfusion hv⟩)
    (Or.inr ⟨cw1Empty, [], rfl, rfl, rfl, by intro v hv ht; exact Option.noConfusion hv⟩)
    rfl

/-!
Roadlink join count and placement (C5).
-/

/-- C5: in a STREET_INFO aggregation whose four primary fetches succeed
well-formed, where the street collection features reference exactly the
roadlink ids `id1, id2` (in that order) and both roadlink fetch-by-id
calls succeed with a `properties` field, the final features list is the
four collections' stripped features followed by the two stripped roadlink
features, last, in reference order — so its length is the sum of the four
primary feature counts plus 2. -/
theorem C5_roadlink_join (oracle : Oracle) (u : String) (b bc c : Option String)
    (o1 o2 o3 o4 : Obj) (elems1 elems2 elems3 elems4 : List Json)
    (fs1 fs2 fs3 fs4 : List Obj) (id1 id2 : Json) (ro1 ro2 : Obj)
    (hu : u ≠ "")
    (hR1 : oracle.byAttr "trn-ntwk-street-1" "usrn" u = .val (Json.obj o1))
    (hR2 : oracle.byAttr "trn-rami-specialdesignationarea-1" "usrn" u = .val (Json.obj o2))
    (hR3 : oracle.byAttr "trn-rami-specialdesignationline-1" "usrn" u = .val (Json.obj o3))
    (hR4 : oracle.byAttr "trn-rami-specialdesignationpoint-1" "usrn" u = .val (Json.obj o4))
    (hf1 : getKey o1 "features" = some (Json.arr elems1))
    (hf2 : getKey o2 "features" = some (Json.arr elems2))
    (hf3 : getKey o3 "features" = some (Json.arr elems3))
    (hf4 : getKey o4 "features" = some (Json.arr elems4))
    (hp1 : processFeaturesList RouteType.streetInfo "trn-ntwk-street-1" elems1 =
      .ok (fs1, [id1, id2]))
    (hp2 : processFeaturesList RouteType.streetInfo "trn-rami-specialdesignationarea-1"
      elems2 = .ok (fs2, []))
    (hp3 : processFeaturesList RouteType.streetInfo "trn-rami-specialdesignationline-1"
      elems3 = .ok (fs3, []))
    (hp4 : processFeaturesList RouteType.streetInfo "trn-rami-specialdesignationpoint-1"
      elems4 = .ok (fs4, []))
    (hts1 : StrTS o1) (hts2 : StrTS o2) (hts3 : StrTS o3) (hts4 : StrTS o4)
    (hr1 : oracle.byId "trn-ntwk-roadlink-5" id1 = .val (Json.obj ro1))
    (hr2 : oracle.byId "trn-ntwk-roadlink-5" id2 = .val (Json.obj ro2))
    (hq1 : hasKey ro1 "properties" = true) (hq2 : hasKey ro2 "properties" = true)
    (hrt1 : StrTS ro1) (hrt2 : StrTS ro2) :
    ∃ ts, process_single_collection oracle "street-info" u b bc c =
      .ok (mkOutput ((fs1 ++ fs2 ++ fs3 ++ fs4) ++
        [delKey ro1 "geometry", delKey ro2 "geometry"]) ts) ∧
      fs1.length = elems1.length ∧ fs2.length = elems2.length ∧
      fs3.length = elems3.length ∧ fs4.length = elems4.length := by
  obtain ⟨a1, ht1, hstr1⟩ := updateTimestamp_str hts1 (Or.inl rfl)
  obtain ⟨a2, ht2, hstr2⟩ := updateTimestamp_str hts2 hstr1
  obtain ⟨a3, ht3, hstr3⟩ := updateTimestamp_str hts3 hstr2
  obtain ⟨a4, ht4, hstr4⟩ := updateTimestamp_str hts4 hstr3
  have hstep1 := stepCollection_ok_processed hf1 hp1 ht1 [] []
  have hstep2 := stepCollection_ok_processed hf2 hp2 ht2 ([] ++ fs1) ([] ++ [id1, id2])
  have hstep3 := stepCollection_ok_processed hf3 hp3 ht3 ([] ++ fs1 ++ fs2)
    ([] ++ [id1, id2] ++ [])
  have hstep4 := stepCollection_ok_processed hf4 hp4 ht4 ([] ++ fs1 ++ fs2 ++ fs3)
    ([] ++ [id1, id2] ++ [] ++ [])
  have hm : mkPrimResults oracle RouteType.streetInfo u b bc c =
      .ok [.val (Json.obj o1), .val (Json.obj o2), .val (Json.obj o3), .val (Json.obj o4)] := by
    simp only [mkPrimResults, queryCollections, List.map_cons, List.map_nil,
      hR1, hR2, hR3, hR4]
  have hfold : foldCollections RouteType.streetInfo
      ((queryCollections RouteType.streetInfo).zip
        [.val (Json.obj o1), .val (Json.obj o2), .val (Json.obj o3), .val (Json.obj o4)])
      ⟨[], none, []⟩ =
      .ok ⟨fs1 ++ fs2 ++ fs3 ++ fs4, a4, [id1, id2]⟩ := by
    show foldCollections RouteType.streetInfo
      [("trn-ntwk-street-1", .val (Json.obj o1)),
       ("trn-rami-specialdesignationarea-1", .val (Json.obj o2)),
       ("trn-rami-specialdesignationline-1", .val (Json.obj o3)),
       ("trn-rami-specialdesignationpoint-1", .val (Json.obj o4))] ⟨[], none, []⟩ = _
    simp only [foldCollections, hstep1, hstep2, hstep3, hstep4]
    simp
  obtain ⟨a5, ht5, hstr5⟩ := updateTimestamp_str hrt1 hstr4
  obtain ⟨a6, ht6, hstr6⟩ := updateTimestamp_str hrt2 hstr5
  have hroad1 := roadStep_ok_processed hq1 ht5 (fs1 ++ fs2 ++ fs3 ++ fs4)
  have hroad2 := roadStep_ok_processed hq2 ht6
    ((fs1 ++ fs2 ++ fs3 ++ fs4) ++ [delKey ro1 "geometry"])
  have hroadfold : roadFold [.val (Json.obj ro1), .val (Json.obj ro2)]
      (fs1 ++ fs2 ++ fs3 ++ fs4, a4) =
      .ok ((fs1 ++ fs2 ++ fs3 ++ fs4) ++
        [delKey ro1 "geometry", delKey ro2 "geometry"], a6) := by
    simp only [roadFold, hroad1, hroad2]
    simp
  refine ⟨a6, ?_, processFeaturesList_length hp1, processFeaturesList_length hp2,
    processFeaturesList_length hp3, processFeaturesList_length hp4⟩
  simp only [process_single_collection, hu, if_false, parseRouteType, reduceIte,
    hm, aggregatePhases, hfold, roadlinkCollectionId, List.map_cons, List.map_nil,
    hr1, hr2, hroadfold]

/-- Street feature with two roadlink references, for the C5 witness. -/
def cw5StreetFeature : Obj :=
  [("id", Json.num 1), ("geometry", Json.null),
   ("properties", Json.obj [("roadlinkreference",
      Json.arr [Json.obj [("roadlinkid", Json.str "RL1")],
                Json.obj [("roadlinkid", Json.str "RL2")]])])]

/-- Street collection result for the C5 witness. -/
def cw5Street : Obj := [("features", Json.arr [Json.obj cw5StreetFeature])]

/-- Empty collection result for the C5 witness. -/
def cw5Empty : Obj := [("features", Json.arr [])]

/-- First roadlink record for the C5 witness. -/
def cw5Road1 : Obj :=
  [("id", Json.str "RL1"), ("properties", Json.obj []), ("geometry", Json.null)]

/-- Second roadlink record for the C5 witness. -/
def cw5Road2 : Obj := [("id", Json.str "RL2"), ("properties", Json.obj [])]

/-- Upstream for the C5 witness. -/
def cw5Oracle : Oracle :=
  ⟨fun cid _ _ =>
     if cid = "trn-ntwk-street-1" then .val (Json.obj cw5Street)
     else .val (Json.obj cw5Empty),
   fun _ _ _ _ => .exn "unused",
   fun _ id =>
     match id with
     | Json.str s => if s = "RL1" then .val (Json.obj cw5Road1) else .val (Json.obj cw5Road2)
     | _ => .exn "unused"⟩

/-- Witness for C5 at a concrete input: one street feature with two
roadlink references, both roadlink fetches succeeding. -/
theorem C5_roadlink_join_witness :
    ∃ ts, process_single_collection cw5Oracle "street-info" "100" none none none =
      .ok (mkOutput (([delKey cw5StreetFeature "geometry"] ++ [] ++ [] ++ []) ++
        [delKey cw5Road1 "geometry", delKey cw5Road2 "geometry"]) ts) ∧
      [delKey cw5StreetFeature "geometry"].length = [Json.obj cw5StreetFeature].length ∧
      ([] : List Obj).length = ([] : List Json).length ∧
      ([] : List Obj).length = ([] : List Json).length ∧
      ([] : List Obj).length = ([] : List Json).length :=
  C5_roadlink_join cw5Oracle "100" none none none
    cw5Street cw5Empty cw5Empty cw5Empty
    [Json.obj cw5StreetFeature] [] [] []
    [delKey cw5StreetFeature "geometry"] [] [] []
    (Json.str "RL1") (Json.str "RL2") cw5Road1 cw5Road2
    (by decide) rfl rfl rfl rfl rfl rfl rfl rfl rfl rfl rfl rfl
    (by intro v hv ht; exact Option.noConfusion hv)
    (by intro v hv ht; exact Option.noConfusion hv)
    (by intro v hv ht; exact Option.noConfusion hv)
    (by intro v hv ht; exact Option.noConfusion hv)
    rfl rfl rfl rfl
    (by intro v hv ht; exact Option.noConfusion hv)
    (by intro v hv ht; exact Option.noConfusion hv)

/-!
Timestamp selection (C4): the returned `timeStamp` is the maximal
observed candidate.
-/

/-- The truthy timestamp candidate of one result dict. -/
def tsCandOf (o : Obj) : Option Json :=
  match getKey o "timeStamp" with
  | some v => if pyTruthy v then some v else none
  | none => none

/-- The timestamp candidate a primary collection result contributes: only
dict results with a `features` key reach the timestamp update. -/
def tsCandOfResult (r : FetchResult) : Option Json :=
  match r with
  | .val (Json.obj o) => if hasKey o "features" then tsCandOf o else none
  | _ => none

/-- The timestamp candidate a roadlink result contributes: only dict
results with a `properties` key reach the timestamp update. -/
def roadCandOfResult (r : FetchResult) : Option Json :=
  match r with
  | .val (Json.obj o) => if hasKey o "properties" then tsCandOf o else none
  | _ => none

/-- The string view of a JSON value. -/
def asStr : Json → Option String :=
  fun v => match v with | Json.str s => some s | _ => none

/-- All timestamp candidates the run under these inputs observes, in
observation order: primary collections first, then (when the join phase
runs) the roadlink results. -/
def observedTsCands (oracle : Oracle) (pt u : String) (b bc c : Option String) :
    List Json :=
  if u = "" then []
  else
    match parseRouteType pt with
    | .error _ => []
    | .ok rt =>
      match mkPrimResults oracle rt u b bc c with
      | .error _ => []
      | .ok prims =>
        match foldCollections rt ((queryCollections rt).zip prims) ⟨[], none, []⟩ with
        | .error _ =>
          ((queryCollections rt).zip prims).filterMap (fun p => tsCandOfResult p.2)
        | .ok st =>
          match rt, st.rids with
          | RouteType.streetInfo, _ :: _ =>
            ((queryCollections rt).zip prims).filterMap (fun p => tsCandOfResult p.2) ++
              (st.rids.map (oracle.byId roadlinkCollectionId)).filterMap roadCandOfResult
          | _, _ =>
            ((queryCollections rt).zip prims).filterMap (fun p => tsCandOfResult p.2)

/-- The observed timestamp candidates that are strings. -/
def observedTsStrs (oracle : Oracle) (pt u : String) (b bc c : Option String) :
    List String :=
  (observedTsCands oracle pt u b bc c).filterMap asStr

/-- One strictly-greater-replacement step of the running maximum. -/
def maxStep (acc : Option String) (s : String) : Option String :=
  match acc with
  | none => some s
  | some c => if c < s then some s else some c

/-- The running maximum over a candidate list. -/
def maxFold (l : List String) (acc : Option String) : Option String :=
  l.foldl maxStep acc

/-- The running timestamp value paired with its string abstraction. -/
def MatchTs (a : Option Json) (m : Option String) : Prop :=
  (a = none ∧ m = none) ∨ (∃ s, a = some (Json.str s) ∧ m = some s ∧ s ≠ "")

theorem maxFold_append (l1 l2 : List String) (m : Option String) :
    maxFold (l1 ++ l2) m = maxFold l2 (maxFold l1 m) := by
  simp [maxFold, List.foldl_append]

theorem updateTimestamp_ts {o : Obj} {acc ts2 : Option Json} {m0 : Option String}
    (ht : updateTimestamp o acc = .ok ts2) (hm : MatchTs acc m0)
    (hstr : ∀ v, tsCandOf o = some v → ∃ s, v = Json.str s) :
    MatchTs ts2 (maxFold ((tsCandOf o).toList.filterMap asStr) m0) := by
  cases hts : getKey o "timeStamp" with
  | none =>
    have hcand : tsCandOf o = none := by simp [tsCandOf, hts]
    have he : ts2 = acc := by
      simp only [updateTimestamp, hts] at ht
      exact (Except.ok.inj ht).symm
    subst he
    simpa [hcand, maxFold] using hm
  | some v =>
    by_cases htr : pyTruthy v = true
    · have hcand : tsCandOf o = some v := by simp [tsCandOf, hts, htr]
      obtain ⟨s, rfl⟩ := hstr v hcand
      have hsne : s ≠ "" := by simpa [pyTruthy] using htr
      rcases hm with ⟨rfl, rfl⟩ | ⟨cs, rfl, rfl, hcs⟩
      · have he : ts2 = some (Json.str s) := by
          simp only [updateTimestamp, hts, htr, if_true] at ht
          exact (Except.ok.inj ht).symm
        subst he
        have hmx : maxFold ((tsCandOf o).toList.filterMap asStr) none = some s := by
          rw [hcand]; rfl
        rw [hmx]
        exact Or.inr ⟨s, rfl, rfl, hsne⟩
      · have hgt : pyGt (Json.str s) (Json.str cs) = .ok (decide (cs < s)) := by
          simp [pyGt, pyStrLt_eq_decide]
        have he : ts2 = if decide (cs < s) = true then some (Json.str s)
            else some (Json.str cs) := by
          simp only [updateTimestamp, hts, htr, if_true, hgt] at ht
          exact (Except.ok.inj ht).symm
        have hmx : maxFold ((tsCandOf o).toList.filterMap asStr) (some cs) =
            some (if cs < s then s else cs) := by
          rw [hcand]
          show maxStep (some cs) s = _
          by_cases hlt : cs < s
          · simp [maxStep, hlt]
          · simp [maxStep, hlt]
        rw [hmx, he]
        by_cases hlt : cs < s
        · rw [if_pos (decide_eq_true hlt), if_pos hlt]
          exact Or.inr ⟨s, rfl, rfl, hsne⟩
        · rw [if_neg (by simpa using hlt), if_neg hlt]
          exact Or.inr ⟨cs, rfl, rfl, hcs⟩
    · have hcand : tsCandOf o = none := by simp [tsCandOf, hts, htr]
      have he : ts2 = acc := by
        simp only [updateTimestamp, hts, htr, if_false] at ht
        exact (Except.ok.inj ht).symm
      subst he
      simpa [hcand, maxFold] using hm

theorem stepCollection_ts {rt : RouteType} {cid : String} {r : FetchResult}
    {st st' : AggState} {m0 : Option String}
    (h : stepCollection rt cid r st = .ok st') (hm : MatchTs st.ts m0)
    (hstr : ∀ v, tsCandOfResult r = some v → ∃ s, v = Json.str s) :
    MatchTs st'.ts (maxFold ((tsCandOfResult r).toList.filterMap asStr) m0) := by
  cases r with
  | exn m =>
    cases Except.ok.inj h
    simpa [tsCandOfResult, maxFold] using hm
  | val v =>
    cases v with
    | obj o =>
      cases hk : getKey o "features" with
      | none =>
        simp only [stepCollection, hk] at h
        cases h
        simpa [tsCandOfResult, hasKey, hk, maxFold] using hm
      | some fv =>
        have hcand : tsCandOfResult (.val (Json.obj o)) = tsCandOf o := by
          simp [tsCandOfResult, hasKey, hk]
        cases he : iterElems fv with
        | error e =>
          simp only [stepCollection, hk, he] at h
          exact Except.noConfusion h
        | ok elems =>
          cases hp : processFeaturesList rt cid elems with
          | error e =>
            simp only [stepCollection, hk, he, hp] at h
            exact Except.noConfusion h
          | ok pr =>
            obtain ⟨fs, ids⟩ := pr
            cases ht : updateTimestamp o st.ts with
            | error e =>
              simp only [stepCollection, hk, he, hp, ht] at h
              exact Except.noConfusion h
            | ok ts2 =>
              simp only [stepCollection, hk, he, hp, ht] at h
              cases h
              rw [hcand]
              exact updateTimestamp_ts ht hm (fun v hv => hstr v (hcand.trans hv))
    | null => cases Except.ok.inj h; simpa [tsCandOfResult, maxFold] using hm
    | bool b => cases Except.ok.inj h; simpa [tsCandOfResult, maxFold] using hm
    | num n => cases Except.ok.inj h; simpa [tsCandOfResult, maxFold] using hm
    | str s => cases Except.ok.inj h; simpa [tsCandOfResult, maxFold] using hm
    | arr l => cases Except.ok.inj h; simpa [tsCandOfResult, maxFold] using hm

theorem foldCollections_ts {rt : RouteType} :
    ∀ {pairs : List (String × FetchResult)} {st0 st' : AggState} {m0 : Option String},
      foldCollections rt pairs st0 = .ok st' → MatchTs st0.ts m0 →
      (∀ v ∈ pairs.filterMap (fun p => tsCandOfResult p.2), ∃ s, v = Json.str s) →
      MatchTs st'.ts
        (maxFold ((pairs.filterMap (fun p => tsCandOfResult p.2)).filterMap asStr) m0) := by
  intro pairs
  induction pairs with
  | nil =>
    intro st0 st' m0 h hm _
    cases Except.ok.inj h
    simpa [maxFold] using hm
  | cons p rest ih =>
    intro st0 st' m0 h hm hstr
    obtain ⟨cid, r⟩ := p
    cases hs : stepCollection rt cid r st0 with
    | error e =>
      simp only [foldCollections, hs] at h
      exact Except.noConfusion h
    | ok st1 =>
      simp only [foldCollections, hs] at h
      have hstep := stepCollection_ts hs hm (fun v hv =>
        hstr v (List.mem_filterMap.mpr ⟨(cid, r), List.mem_cons_self _ _, hv⟩))
      have hrest := ih h hstep (fun v hv => by
        rcases List.mem_filterMap.mp hv with ⟨a, ha, hga⟩
        exact hstr v (List.mem_filterMap.mpr ⟨a, List.mem_cons_of_mem _ ha, hga⟩))
      have hsplit : (((cid, r) :: rest).filterMap (fun p => tsCandOfResult p.2)).filterMap
            asStr =
          ((tsCandOfResult r).toList.filterMap asStr) ++
            ((rest.filterMap (fun p => tsCandOfResult p.2)).filterMap asStr) := by
        cases hfv : tsCandOfResult r with
        | none => simp [List.filterMap_cons, hfv]
        | some v =>
          simp only [List.filterMap_cons, hfv]
          cases hv2 : asStr v <;> simp [hv2]
      rw [hsplit, maxFold_append]
      exact hrest

theorem roadStep_ts {r : FetchResult} {st st' : List Obj × Option Json}
    {m0 : Option String} (h : roadStep r st = .ok st') (hm : MatchTs st.2 m0)
    (hstr : ∀ v, roadCandOfResult r = some v → ∃ s, v = Json.str s) :
    MatchTs st'.2 (maxFold ((roadCandOfResult r).toList.filterMap asStr) m0) := by
  cases r with
  | exn m =>
    cases Except.ok.inj h
    simpa [roadCandOfResult, maxFold] using hm
  | val v =>
    cases v with
    | obj o =>
      by_cases hp : hasKey o "properties" = true
      · have hcand : roadCandOfResult (.val (Json.obj o)) = tsCandOf o := by
          simp [roadCandOfResult, hp]
        cases ht : updateTimestamp o st.2 with
        | error e =>
          simp only [roadStep, hp, if_true, ht] at h
          exact Except.noConfusion h
        | ok ts2 =>
          simp only [roadStep, hp, if_true, ht] at h
          cases h
          rw [hcand]
          exact updateTimestamp_ts ht hm (fun v hv => hstr v (hcand.trans hv))
      · simp only [roadStep, hp, if_false] at h
        cases h
        have hcand : roadCandOfResult (.val (Json.obj o)) = none := by
          simp only [roadCandOfResult]
          rw [if_neg hp]
        simpa [hcand, maxFold] using hm
    | null => cases Except.ok.inj h; simpa [roadCandOfResult, maxFold] using hm
    | bool b => cases Except.ok.inj h; simpa [roadCandOfResult, maxFold] using hm
    | num n => cases Except.ok.inj h; simpa [roadCandOfResult, maxFold] using hm
    | str s => cases Except.ok.inj h; simpa [roadCandOfResult, maxFold] using hm
    | arr l => cases Except.ok.inj h; simpa [roadCandOfResult, maxFold] using hm

theorem roadFold_ts :
    ∀ {rs : List FetchResult} {st st' : List Obj × Option Json} {m0 : Option String},
      roadFold rs st = .ok st' → MatchTs st.2 m0 →
      (∀ v ∈ rs.filterMap roadCandOfResult, ∃ s, v = Json.str s) →
      MatchTs st'.2 (maxFold ((rs.filterMap roadCandOfResult).filterMap asStr) m0) := by
  intro rs
  induction rs with
  | nil =>
    intro st st' m0 h hm _
    cases Except.ok.inj h
    simpa [maxFold] using hm
  | cons r rest ih =>
    intro st st' m0 h hm hstr
    cases hs : roadStep r st with
    | error e =>
      simp only [roadFold, hs] at h
      exact Except.noConfusion h
    | ok st1 =>
      simp only [roadFold, hs] at h
      have hstep := roadStep_ts hs hm (fun v hv =>
        hstr v (List.mem_filterMap.mpr ⟨r, List.mem_cons_self _ _, hv⟩))
      have hrest := ih h hstep (fun v hv => by
        rcases List.mem_filterMap.mp hv with ⟨a, ha, hga⟩
        exact hstr v (List.mem_filterMap.mpr ⟨a, List.mem_cons_of_mem _ ha, hga⟩))
      have hsplit : ((r :: rest).filterMap roadCandOfResult).filterMap asStr =
          ((roadCandOfResult r).toList.filterMap asStr) ++
            ((rest.filterMap roadCandOfResult).filterMap asStr) := by
        cases hfv : roadCandOfResult r with
        | none => simp [List.filterMap_cons, hfv]
        | some v =>
          simp only [List.filterMap_cons, hfv]
          cases hv2 : asStr v <;> simp [hv2]
      rw [hsplit, maxFold_append]
      exact hrest

theorem maxFold_some_spec : ∀ (l : List String) (c : String),
    ∃ m, maxFold l (some c) = some m ∧ (m = c ∨ m ∈ l) ∧ c ≤ m ∧ ∀ s ∈ l, s ≤ m := by
  intro l
  induction l with
  | nil =>
    intro c
    exact ⟨c, rfl, Or.inl rfl, le_refl c, by intro s hs; cases hs⟩
  | cons x rest ih =>
    intro c
    by_cases hlt : c < x
    · obtain ⟨m, hmf, hmem, hle, hall⟩ := ih x
      refine ⟨m, ?_, ?_, ?_, ?_⟩
      · show maxFold rest (maxStep (some c) x) = some m
        simpa [maxStep, hlt] using hmf
      · rcases hmem with rfl | hm
        · exact Or.inr (List.mem_cons_self _ _)
        · exact Or.inr (List.mem_cons_of_mem _ hm)
      · exact le_trans (le_of_lt hlt) hle
      · intro s hs
        rcases List.mem_cons.mp hs with rfl | hs
        · exact hle
        · exact hall s hs
    · obtain ⟨m, hmf, hmem, hle, hall⟩ := ih c
      refine ⟨m, ?_, ?_, ?_, ?_⟩
      · show maxFold rest (maxStep (some c) x) = some m
        simpa [maxStep, hlt] using hmf
      · rcases hmem with rfl | hm
        · exact Or.inl rfl
        · exact Or.inr (List.mem_cons_of_mem _ hm)
      · exact hle
      · intro s hs
        rcases List.mem_cons.mp hs with rfl | hs
        · exact le_trans (le_of_not_lt hlt) hle
        · exact hall s hs

theorem maxFold_none_spec : ∀ (l : List String),
    (maxFold l none = none ∧ l = []) ∨
    (∃ m, maxFold l none = some m ∧ m ∈ l ∧ ∀ s ∈ l, s ≤ m) := by
  intro l
  cases l with
  | nil => exact Or.inl ⟨rfl, rfl⟩
  | cons x rest =>
    obtain ⟨m, hmf, hmem, hle, hall⟩ := maxFold_some_spec rest x
    refine Or.inr ⟨m, ?_, ?_, ?_⟩
    · show maxFold rest (maxStep none x) = some m
      simpa [maxStep] using hmf
    · rcases hmem with rfl | hm
      · exact List.mem_cons_self _ _
      · exact List.mem_cons_of_mem _ hm
    · intro s hs
      rcases List.mem_cons.mp hs with rfl | hs
      · exact hle
      · exact hall s hs

theorem conclude_ts {feats : List Obj} {ts : Option Json} {strs : List String}
    (hm : MatchTs ts (maxFold strs none)) :
    ∃ m, getKey (mkOutput feats ts) "timeStamp" = some (Json.str m) ∧
      ((strs = [] ∧ m = "") ∨ (m ∈ strs ∧ ∀ s ∈ strs, s ≤ m)) := by
  rcases maxFold_none_spec strs with ⟨hmn, rfl⟩ | ⟨mx, hmf, hmem, hall⟩
  · rw [hmn] at hm
    rcases hm with ⟨rfl, -⟩ | ⟨s, -, hcontra, -⟩
    · exact ⟨"", by rw [getKey_mkOutput_ts]; rfl, Or.inl ⟨rfl, rfl⟩⟩
    · exact absurd hcontra (by simp)
  · rw [hmf] at hm
    rcases hm with ⟨-, hcontra⟩ | ⟨s, rfl, hseq, hsne⟩
    · exact absurd hcontra (by simp)
    · cases Option.some.inj hseq
      refine ⟨mx, ?_, Or.inr ⟨hmem, hall⟩⟩
      rw [getKey_mkOutput_ts]
      simp [orEmptyStr, pyTruthy, hsne]

/-- C4: for every successful run all of whose observed timestamp
candidates are strings, the returned `timeStamp` is a string equal to the
lexicographically maximal observed candidate (candidates are the truthy
timeStamp values of successfully processed primary and roadlink results;
replacement happens only on strict string inequality), and it is the empty
string exactly when no candidate was observed. -/
theorem C4_timestamp :
    ∀ (oracle : Oracle) (pt u : String) (b bc c : Option String) (out : Obj),
      process_single_collection oracle pt u b bc c = Except.ok out →
      (∀ v ∈ observedTsCands oracle pt u b bc c, ∃ s, v = Json.str s) →
      ∃ m, getKey out "timeStamp" = some (Json.str m) ∧
        ((observedTsStrs oracle pt u b bc c = [] ∧ m = "") ∨
         (m ∈ observedTsStrs oracle pt u b bc c ∧
          ∀ s ∈ observedTsStrs oracle pt u b bc c, s ≤ m)) := by
  intro oracle pt u b bc c out hok hstr
  by_cases hu : u = ""
  · simp only [process_single_collection, hu, if_true] at hok
    exact Except.noConfusion hok
  · cases hpt : parseRouteType pt with
    | error e =>
      simp only [process_single_collection, hu, if_false, hpt] at hok
      exact Except.noConfusion hok
    | ok rt =>
      cases hm : mkPrimResults oracle rt u b bc c with
      | error e =>
        simp only [process_single_collection, hu, if_false, hpt, hm] at hok
        exact Except.noConfusion hok
      | ok prims =>
        simp only [process_single_collection, hu, if_false, hpt, hm] at hok
        cases hfold : foldCollections rt ((queryCollections rt).zip prims)
            ⟨[], none, []⟩ with
        | error e =>
          simp only [aggregatePhases, hfold] at hok
          exact Except.noConfusion hok
        | ok st =>
          have hts0 : MatchTs (AggState.mk [] none []).ts none := Or.inl ⟨rfl, rfl⟩
          cases rt with
          | landUse =>
            simp only [aggregatePhases, hfold] at hok
            cases hok
            have hobs : observedTsCands oracle pt u b bc c =
                ((queryCollections RouteType.landUse).zip prims).filterMap
                  (fun p => tsCandOfResult p.2) := by
              simp only [observedTsCands, hu, if_false, hpt, hm, hfold]
            have hfts := foldCollections_ts hfold hts0 (by rw [← hobs]; exact hstr)
            rw [show observedTsStrs oracle pt u b bc c =
              (((queryCollections RouteType.landUse).zip prims).filterMap
                (fun p => tsCandOfResult p.2)).filterMap asStr from by
                rw [observedTsStrs, hobs]]
            exact conclude_ts hfts
          | streetInfo =>
            cases hr : st.rids with
            | nil =>
              simp only [aggregatePhases, hfold, hr] at hok
              cases hok
              have hobs : observedTsCands oracle pt u b bc c =
                  ((queryCollections RouteType.streetInfo).zip prims).filterMap
                    (fun p => tsCandOfResult p.2) := by
                simp only [observedTsCands, hu, if_false, hpt, hm, hfold, hr]
              have hfts := foldCollections_ts hfold hts0 (by rw [← hobs]; exact hstr)
              rw [show observedTsStrs oracle pt u b bc c =
                (((queryCollections RouteType.streetInfo).zip prims).filterMap
                  (fun p => tsCandOfResult p.2)).filterMap asStr from by
                  rw [observedTsStrs, hobs]]
              exact conclude_ts hfts
            | cons i tl =>
              cases hroad : roadFold
                  ((i :: tl).map (oracle.byId roadlinkCollectionId))
                  (st.feats, st.ts) with
              | error e =>
                simp only [aggregatePhases, hfold, hr, hroad] at hok
                exact Except.noConfusion hok
              | ok p =>
                simp only [aggregatePhases, hfold, hr, hroad] at hok
                cases hok
                have hobs : observedTsCands oracle pt u b bc c =
                    ((queryCollections RouteType.streetInfo).zip prims).filterMap
                      (fun p => tsCandOfResult p.2) ++
                    ((i :: tl).map (oracle.byId roadlinkCollectionId)).filterMap
                      roadCandOfResult := by
                  simp only [observedTsCands, hu, if_false, hpt, hm, hfold, hr]
                have hprim : ∀ v ∈ ((queryCollections RouteType.streetInfo).zip
                    prims).filterMap (fun p => tsCandOfResult p.2), ∃ s, v = Json.str s := by
                  intro v hv
                  exact hstr v (by rw [hobs]; exact List.mem_append_left _ hv)
                have hroadc : ∀ v ∈ ((i :: tl).map
                    (oracle.byId roadlinkCollectionId)).filterMap roadCandOfResult,
                    ∃ s, v = Json.str s := by
                  intro v hv
                  exact hstr v (by rw [hobs]; exact List.mem_append_right _ hv)
                have hfts := foldCollections_ts hfold hts0 hprim
                have hrts := roadFold_ts hroad (by simpa using hfts) hroadc
                rw [show observedTsStrs oracle pt u b bc c =
                  ((((queryCollections RouteType.streetInfo).zip prims).filterMap
                    (fun p => tsCandOfResult p.2)).filterMap asStr) ++
                  ((((i :: tl).map (oracle.byId roadlinkCollectionId)).filterMap
                    roadCandOfResult).filterMap asStr) from by
                    rw [observedTsStrs, hobs, List.filterMap_append]]
                have hfinal : MatchTs p.2
                    (maxFold (((((queryCollections RouteType.streetInfo).zip
                      prims).filterMap (fun p => tsCandOfResult p.2)).filterMap asStr) ++
                    ((((i :: tl).map (oracle.byId roadlinkCollectionId)).filterMap
                      roadCandOfResult).filterMap asStr)) none) := by
                  rw [maxFold_append]
                  exact hrts
                exact conclude_ts hfinal

/-- Collection results with timestamps for the C4 witness. -/
def cw4A : Obj := [("features", Json.arr []), ("timeStamp", Json.str "2024-01-01T00:00:00Z")]

/-- Collection result with an empty timestamp for the C4 witness. -/
def cw4B : Obj := [("features", Json.arr []), ("timeStamp", Json.str "")]

/-- Collection result with the latest timestamp for the C4 witness. -/
def cw4C : Obj := [("features", Json.arr []), ("timeStamp", Json.str "2024-06-01T00:00:00Z")]

/-- Upstream for the C4 witness: timestamps `2024-01-01`, empty,
`2024-06-01`, one failed fetch. -/
def cw4Oracle : Oracle :=
  ⟨fun cid _ _ =>
     if cid = "trn-ntwk-street-1" then .val (Json.obj cw4A)
     else if cid = "trn-rami-specialdesignationarea-1" then .val (Json.obj cw4B)
     else if cid = "trn-rami-specialdesignationline-1" then .val (Json.obj cw4C)
     else .exn "down",
   fun _ _ _ _ => .exn "down",
   fun _ _ => .exn "down"⟩

/-- Witness for C4 at a concrete input: the merged timestamp is the
maximal non-empty candidate `2024-06-01T00:00:00Z`. -/
theorem C4_timestamp_witness :
    ∃ m, getKey (mkOutput [] (some (Json.str "2024-06-01T00:00:00Z"))) "timeStamp" =
        some (Json.str m) ∧
      ((observedTsStrs cw4Oracle "street-info" "100" none none none = [] ∧ m = "") ∨
       (m ∈ observedTsStrs cw4Oracle "street-info" "100" none none none ∧
        ∀ s ∈ observedTsStrs cw4Oracle "street-info" "100" none none none, s ≤ m)) :=
  C4_timestamp cw4Oracle "street-info" "100" none none none
    (mkOutput [] (some (Json.str "2024-06-01T00:00:00Z"))) (by rfl)
    (by
      intro v hv
      rw [show observedTsCands cw4Oracle "street-info" "100" none none none =
        [Json.str "2024-01-01T00:00:00Z", Json.str "2024-06-01T00:00:00Z"] from rfl] at hv
      rcases List.mem_cons.mp hv with rfl | hv2
      · exact ⟨_, rfl⟩
      · rcases List.mem_cons.mp hv2 with rfl | hv3
        · exact ⟨_, rfl⟩
        · cases hv3)
